import Mathlib

/-!
# Verification of the stock/ledger reconciliation core of a point-of-sale app

This file gives a shallow embedding, in Lean 4, of the central state-container
logic of a retail point-of-sale web application: batch-level FIFO stock
deduction on sales, sale editing with stock/balance reversal, sale and purchase
returns, multi-currency purchase posting, payroll processing, and the
backup/restore row mappings of the data-access adapter.

Modelling conventions:
* JavaScript numbers holding money or prices are modelled as `ℚ`; quantities,
  stock counts, and timestamps (millisecond epoch values obtained from
  `Date.getTime()`) are modelled as `ℤ` (timestamps as a linear order is all
  the code uses).
* The single-page app keeps a local in-memory mirror of the remote database
  and updates it optimistically after each adapter call resolves.  In this
  single-client embedding the two are merged into one `AppState`; an adapter
  call that resolves applies the remote write set to that state, and a call
  that rejects applies nothing (the optimistic update is skipped).
* `crypto.randomUUID()` values and the wall clock are passed in as explicit
  parameters.
* Adapter invocations are recorded in an explicit `ApiCall` trace so that
  "no adapter call is made" is a statement about the model.
* Non-null assertions (`!`) in the source are modelled with `Option` defaults;
  theorems about those paths carry the existence hypotheses the source
  implicitly assumes.
-/

namespace Ketabestan

/-- A discrete lot of stock for one product (table `product_batches`). -/
structure ProductBatch where
  id : String
  lotNumber : String
  stock : ℤ
  purchasePrice : ℚ
  purchaseDate : ℤ
  expiryDate : Option ℤ
deriving DecidableEq

/-- A product with its nested stock batches. -/
structure Product where
  id : String
  name : String
  salePrice : ℚ
  barcode : Option String
  manufacturer : Option String
  itemsPerPackage : Option ℤ
  batches : List ProductBatch
deriving DecidableEq

/-- A product line in the cart / in a sale invoice (`InvoiceItem & type:'product'`). -/
structure ProdItem where
  id : String
  name : String
  salePrice : ℚ
  itemsPerPackage : Option ℤ
  quantity : ℤ
  purchasePrice : ℚ
  finalPrice : Option ℚ
deriving DecidableEq

/-- A service line in the cart / in a sale invoice. -/
structure ServItem where
  id : String
  name : String
  price : ℚ
  quantity : ℤ
deriving DecidableEq

/-- `CartItem = (InvoiceItem & type:'product') | (Service & quantity & type:'service')`. -/
inductive CartItem where
  | prod : ProdItem → CartItem
  | serv : ServItem → CartItem
deriving DecidableEq

/-- A sale invoice (table `sale_invoices` plus its `sale_invoice_items`). -/
structure SaleInvoice where
  id : String
  type : String
  originalInvoiceId : Option String
  items : List CartItem
  subtotal : ℚ
  totalDiscount : ℚ
  totalAmount : ℚ
  timestamp : ℤ
  cashier : String
  customerId : Option String
deriving DecidableEq

/-- A purchase invoice line item. -/
structure PurchaseInvoiceItem where
  productId : String
  productName : String
  quantity : ℤ
  purchasePrice : ℚ
  lotNumber : String
  expiryDate : Option ℤ
deriving DecidableEq

/-- A purchase invoice (table `purchase_invoices` plus items). -/
structure PurchaseInvoice where
  id : String
  type : String
  originalInvoiceId : Option String
  supplierId : String
  invoiceNumber : String
  items : List PurchaseInvoiceItem
  totalAmount : ℚ
  timestamp : ℤ
  currency : Option String
  exchangeRate : Option ℚ
deriving DecidableEq

/-- A customer with a running balance (positive: they owe the store). -/
structure Customer where
  id : String
  name : String
  phone : Option String
  creditLimit : Option ℚ
  balance : ℚ
deriving DecidableEq

/-- A supplier with a running balance in base currency. -/
structure Supplier where
  id : String
  name : String
  contactPerson : Option String
  phone : Option String
  address : Option String
  balance : ℚ
deriving DecidableEq

/-- An employee; `balance` is the advance taken so far. -/
structure Employee where
  id : String
  name : String
  position : String
  monthlySalary : ℚ
  balance : ℚ
deriving DecidableEq

/-- A customer ledger entry. -/
structure CustomerTransaction where
  id : String
  customerId : String
  type : String
  amount : ℚ
  date : ℤ
  description : String
  invoiceId : Option String
deriving DecidableEq

/-- A supplier ledger entry; `currency` records the original display currency. -/
structure SupplierTransaction where
  id : String
  supplierId : String
  type : String
  amount : ℚ
  date : ℤ
  description : String
  invoiceId : Option String
  currency : Option String
deriving DecidableEq

/-- A payroll ledger entry. -/
structure PayrollTransaction where
  id : String
  employeeId : String
  type : String
  amount : ℚ
  date : ℤ
  description : String
deriving DecidableEq

/-- An expense row. -/
structure Expense where
  id : String
  category : String
  description : String
  amount : ℚ
  date : ℤ
deriving DecidableEq

/-- The slice of the application state container the stock/ledger logic acts on. -/
structure AppState where
  products : List Product
  saleInvoices : List SaleInvoice
  purchaseInvoices : List PurchaseInvoice
  customers : List Customer
  suppliers : List Supplier
  employees : List Employee
  expenses : List Expense
  cart : List CartItem
  customerTransactions : List CustomerTransaction
  supplierTransactions : List SupplierTransaction
  payrollTransactions : List PayrollTransaction
  editingSaleInvoiceId : Option String
deriving DecidableEq

/-- The `customerUpdate` payload handed to `api.createSale`. -/
structure CustomerUpdate where
  id : String
  newBalance : ℚ
  transaction : CustomerTransaction
deriving DecidableEq

/-- The `custUpdateParams` payload handed to `api.updateSale`. -/
structure CustUpdateParams where
  id : String
  oldAmount : ℚ
  newAmount : ℚ
  description : String
deriving DecidableEq

/-- The `supplierUpdate` payload handed to `api.createPurchase`. -/
structure SupplierUpdate where
  id : String
  newBalance : ℚ
  transaction : SupplierTransaction
deriving DecidableEq

/-- A batch row to be inserted by `api.createPurchase` (carries its product id). -/
structure NewBatch where
  id : String
  productId : String
  lotNumber : String
  stock : ℤ
  purchasePrice : ℚ
  purchaseDate : ℤ
  expiryDate : Option ℤ
deriving DecidableEq

/-- One recorded adapter invocation. -/
inductive ApiCall where
  | createSale : SaleInvoice → List (String × ℤ) → Option CustomerUpdate → ApiCall
  | updateSale : String → SaleInvoice → List (String × ℤ) → List (String × ℤ) →
      Option CustUpdateParams → ApiCall
  | createSaleReturn : SaleInvoice → List (String × ℤ) → Option (String × ℚ) → ApiCall
  | createPurchase : PurchaseInvoice → SupplierUpdate → List NewBatch → ApiCall
  | createPurchaseReturn : PurchaseInvoice → List (String × ℤ × String) →
      Option (String × ℚ) → ApiCall
  | processPayroll : List String → List PayrollTransaction → Expense → ApiCall
deriving DecidableEq

/-- The synchronous return value of an action, together with the state after all
promise callbacks have run, the adapter trace, and the toasts shown. -/
structure ActionOutcome where
  success : Bool
  message : String
  invoice : Option SaleInvoice
  state : AppState
  calls : List ApiCall
  toasts : List String
deriving DecidableEq

/-! ## Cart pricing helpers (`getPrice` in the source) -/

/-- Effective per-line price: the override when present, else the list price. -/
def getPriceFinal : CartItem → ℚ
  | .prod i => i.finalPrice.getD i.salePrice
  | .serv s => s.price

/-- List price of a line. -/
def getPriceOriginal : CartItem → ℚ
  | .prod i => i.salePrice
  | .serv s => s.price

/-- Quantity of a line. -/
def itemQty : CartItem → ℤ
  | .prod i => i.quantity
  | .serv s => s.quantity

/-- Entity id of a line. -/
def itemId : CartItem → String
  | .prod i => i.id
  | .serv s => s.id

/-- The `type` discriminator string of a line. -/
def itemType : CartItem → String
  | .prod _ => "product"
  | .serv _ => "service"

/-- `subtotal`: the cart reduced with list prices. -/
def cartSubtotal (cart : List CartItem) : ℚ :=
  cart.foldl (fun total it => getPriceOriginal it * (itemQty it : ℚ) + total) 0

/-- `totalAmount`: the cart reduced with effective prices. -/
def cartTotal (cart : List CartItem) : ℚ :=
  cart.foldl (fun total it => getPriceFinal it * (itemQty it : ℚ) + total) 0

/-! ## FIFO stock deduction (`completeSale`, stock deduction logic) -/

/-- Total stock of a product: the sum of its batches' stocks. -/
def totalStock (p : Product) : ℤ :=
  (p.batches.map (·.stock)).sum

/-- Stable ascending sort by an integer key, mirroring `Array.prototype.sort`
with the comparator `(a, b) => key(a) - key(b)`. -/
def sortByKey (key : α → ℤ) (l : List α) : List α :=
  l.insertionSort (fun a b => key a ≤ key b)

/-- Sort key for batches with an expiry date. -/
def expiryKey (b : ProductBatch) : ℤ :=
  b.expiryDate.getD 0

/-- The in-date batches, soonest expiry first. -/
def expiryPart (batches : List ProductBatch) : List ProductBatch :=
  sortByKey expiryKey
    (batches.filter (fun b => b.expiryDate.isSome && decide (0 < b.stock)))

/-- The batches without expiry date, oldest purchase first. -/
def noExpiryPart (batches : List ProductBatch) : List ProductBatch :=
  sortByKey (·.purchaseDate)
    (batches.filter (fun b => b.expiryDate.isNone && decide (0 < b.stock)))

/-- The order in which a sale consumes batches: expiring stock first. -/
def deductionOrder (batches : List ProductBatch) : List ProductBatch :=
  expiryPart batches ++ noExpiryPart batches

/-- Result of the per-line deduction loop. -/
structure DeductResult where
  remaining : ℤ
  totalPurchaseValue : ℚ
  stockUpdates : List (String × ℤ)
deriving DecidableEq

/-- The deduction loop of `completeSale`: walk the batches in order, taking
`min (remaining, batch.stock)` from each, recording each visited batch's new
stock and accumulating the consumed purchase value; stop once nothing remains. -/
def runDeduction : List ProductBatch → ℤ → DeductResult
  | [], q => ⟨q, 0, []⟩
  | b :: bs, q =>
    if q ≤ 0 then ⟨q, 0, []⟩
    else
      let d := min q b.stock
      let r := runDeduction bs (q - d)
      ⟨r.remaining, (d : ℚ) * b.purchasePrice + r.totalPurchaseValue,
        (b.id, b.stock - d) :: r.stockUpdates⟩

/-- Following the spec's words, for comparison with `runDeduction`: deduct the
requested quantity across the ordered batches, pairing each batch with the
amount `min (remaining, stock)` consumed from it. -/
def specConsume (q : ℤ) : List ProductBatch → List (ProductBatch × ℤ)
  | [] => []
  | b :: bs =>
    if q ≤ 0 then []
    else (b, min q b.stock) :: specConsume (q - min q b.stock) bs

/-- Total quantity consumed by a consumption plan. -/
def consumedSum (plan : List (ProductBatch × ℤ)) : ℤ :=
  (plan.map (·.2)).sum

/-- Total purchase value of a consumption plan ("quantity × batch unit cost"). -/
def consumedCost (plan : List (ProductBatch × ℤ)) : ℚ :=
  (plan.map (fun x => (x.2 : ℚ) * x.1.purchasePrice)).sum

/-- The snapshotted unit cost of a sale line: consumed purchase value divided
by the line quantity. -/
def linePurchasePrice (p : Product) (q : ℤ) : ℚ :=
  (runDeduction (deductionOrder p.batches) q).totalPurchaseValue / (q : ℚ)

/-- Write the recorded new stock values back into a batch list (the in-place
mutation of the deep-copied products in the source). -/
def applyStockUpdates (updates : List (String × ℤ)) (batches : List ProductBatch) :
    List ProductBatch :=
  batches.map fun b =>
    match updates.find? (fun u => u.1 == b.id) with
    | some u => { b with stock := u.2 }
    | none => b

/-- `completeSale`'s insufficient-stock message for a product name. -/
def insufficientMsg (name : String) : String :=
  "موجودی محصول \"" ++ name ++ "\" کافی نیست!"

/-- `completeSale`'s product-not-found message. -/
def notFoundMsg (name : String) : String :=
  "محصول \"" ++ name ++ "\" یافت نشد!"

/-- The preparation loop of `completeSale`: walk the cart in order; for every
product line look the product up, run the batch deduction, fail on a missing
product or insufficient stock, otherwise thread the updated products through
and snapshot the line's unit cost.  Returns the updated products, the invoice
lines, and the accumulated stock updates. -/
def processCart (products : List Product) :
    List CartItem → Except String (List Product × List CartItem × List (String × ℤ))
  | [] => .ok (products, [], [])
  | .serv sv :: rest =>
    match processCart products rest with
    | .error m => .error m
    | .ok (ps, its, us) => .ok (ps, .serv sv :: its, us)
  | .prod i :: rest =>
    match products.find? (fun p => p.id == i.id) with
    | none => .error (notFoundMsg i.name)
    | some p =>
      let r := runDeduction (deductionOrder p.batches) i.quantity
      if 0 < r.remaining then .error (insufficientMsg i.name)
      else
        match processCart
            (products.map fun q =>
              if q.id == p.id then
                { q with batches := applyStockUpdates r.stockUpdates q.batches }
              else q) rest with
        | .error m => .error m
        | .ok (ps, its, us) =>
          .ok (ps,
            .prod { i with purchasePrice := r.totalPurchaseValue / (i.quantity : ℚ) } :: its,
            r.stockUpdates ++ us)

/-! ## Sequential invoice ids (`generateNextId`) -/

/-- Strip a literal character prefix off a character list. -/
def dropPre : List Char → List Char → Option (List Char)
  | [], cs => some cs
  | _ :: _, [] => none
  | p :: ps, c :: cs => if p = c then dropPre ps cs else none

/-- Parse a non-empty all-digit character list (the `(\d+)$` group). -/
def parseDigitsAux : List Char → ℕ → Option ℕ
  | [], acc => some acc
  | c :: cs, acc =>
    if c.isDigit then parseDigitsAux cs (acc * 10 + (c.toNat - 48)) else none

/-- Parse a non-empty digit string to its numeric value. -/
def parseDigits : List Char → Option ℕ
  | [] => none
  | cs => parseDigitsAux cs 0

/-- The numeric suffix of an id matching `^<pre>(\d+)$`, ignoring values at or
above `100000000000` (stray timestamps) as the source does. -/
def idNumValue (pre id : String) : Option ℕ :=
  match dropPre pre.data id.data with
  | none => none
  | some rest =>
    match parseDigits rest with
    | none => none
    | some n => if n < 100000000000 then some n else none

/-- `generateNextId`: one more than the largest numeric suffix in use. -/
def generateNextId (pre : String) (ids : List String) : String :=
  let mx := ids.foldl
    (fun m i =>
      match idNumValue pre i with
      | some n => max m n
      | none => m) 0
  pre ++ toString (mx + 1)

/-! ## Adapter write sets (the `api.*` multi-step operations) -/

/-- The stock of the batch with the given id, located the way `completeSale`'s
edit path does: first product owning such a batch, then the batch in it. -/
def lookupBatchStock (products : List Product) (batchId : String) : Option ℤ :=
  match products.find? (fun p => p.batches.any (fun b => b.id == batchId)) with
  | none => none
  | some p => (p.batches.find? (fun b => b.id == batchId)).map (·.stock)

/-- `api.createSale` / the optimistic update: set each recorded batch's stock
to its recorded new value. -/
def applySaleStockWrites (updates : List (String × ℤ)) (products : List Product) :
    List Product :=
  products.map fun p => { p with batches := applyStockUpdates updates p.batches }

/-- One stock restore of `api.updateSale` / `api.createSaleReturn`: add the
quantity to the stock of the first batch found for the product. -/
def applyRestore (products : List Product) (r : String × ℤ) : List Product :=
  products.map fun p =>
    if p.id == r.1 then
      { p with
        batches :=
          match p.batches with
          | [] => []
          | b :: bs => { b with stock := b.stock + r.2 } :: bs }
    else p

/-- One stock deduction of `api.updateSale`: re-read the batch by id and
subtract the quantity (no clamping). -/
def applyDeduction (products : List Product) (d : String × ℤ) : List Product :=
  products.map fun p =>
    { p with
      batches := p.batches.map fun b =>
        if b.id == d.1 then { b with stock := b.stock - d.2 } else b }

/-- The write set of `api.updateSale`: restore stock, apply the new
deductions, replace the edited invoice's financial header fields and items,
and, when requested, shift the customer balance by the delta of the two
totals and update the linked `credit_sale` ledger row. -/
def apiUpdateSale (s : AppState) (invoiceId : String) (newInv : SaleInvoice)
    (restores deductions : List (String × ℤ)) (cust : Option CustUpdateParams) :
    AppState :=
  let prods := deductions.foldl applyDeduction (restores.foldl applyRestore s.products)
  let invoices := s.saleInvoices.map fun i =>
    if i.id == invoiceId then
      { i with
        subtotal := newInv.subtotal
        totalDiscount := newInv.totalDiscount
        totalAmount := newInv.totalAmount
        customerId := newInv.customerId
        items := newInv.items }
    else i
  match cust with
  | none => { s with products := prods, saleInvoices := invoices }
  | some cu =>
    match s.customers.find? (fun c => c.id == cu.id) with
    | none => { s with products := prods, saleInvoices := invoices }
    | some c0 =>
      { s with
        products := prods
        saleInvoices := invoices
        customers := s.customers.map fun c =>
          if c.id == cu.id then
            { c with balance := c0.balance - cu.oldAmount + cu.newAmount }
          else c
        customerTransactions := s.customerTransactions.map fun t =>
          if t.invoiceId == some invoiceId && t.type == "credit_sale" then
            { t with amount := cu.newAmount, description := cu.description }
          else t }

/-- The write set of `api.createSaleReturn`: insert the return invoice,
restore each returned quantity onto the first batch found for its product,
and, for credit sales, refund the customer and append a `sale_return` row. -/
def apiCreateSaleReturn (s : AppState) (retInv : SaleInvoice)
    (restores : List (String × ℤ)) (refund : Option (String × ℚ))
    (now : ℤ) (txId : String) : AppState :=
  let prods := restores.foldl applyRestore s.products
  let base := { s with saleInvoices := retInv :: s.saleInvoices, products := prods }
  match refund with
  | none => base
  | some (cid, amt) =>
    match s.customers.find? (fun c => c.id == cid) with
    | none => base
    | some c0 =>
      { base with
        customers := s.customers.map fun c =>
          if c.id == cid then { c with balance := c0.balance - amt } else c
        customerTransactions :=
          { id := txId
            customerId := cid
            type := "sale_return"
            amount := amt
            date := now
            description := "مرجوعی فاکتور #" ++ retInv.originalInvoiceId.getD ""
            invoiceId := some retInv.id } :: s.customerTransactions }

/-- One stock write of `api.createPurchaseReturn`: find the first batch of the
product with the matching lot number and clamp its stock at zero. -/
def applyLotDeduction (lot : String) (q : ℤ) : List ProductBatch → List ProductBatch
  | [] => []
  | b :: bs =>
    if b.lotNumber == lot then { b with stock := max 0 (b.stock - q) } :: bs
    else b :: applyLotDeduction lot q bs

/-- Apply one purchase-return deduction `(productId, quantity, lotNumber)`. -/
def applyPurchaseReturnDeduction (products : List Product) (d : String × ℤ × String) :
    List Product :=
  products.map fun p =>
    if p.id == d.1 then { p with batches := applyLotDeduction d.2.2 d.2.1 p.batches }
    else p

/-! ## `completeSale` (create and edit paths) -/

/-- Fallback invoice for the source's non-null assertion on the edited
invoice; edit-path theorems assume the invoice exists. -/
def defaultInvoice : SaleInvoice :=
  { id := ""
    type := "sale"
    originalInvoiceId := none
    items := []
    subtotal := 0
    totalDiscount := 0
    totalAmount := 0
    timestamp := 0
    cashier := ""
    customerId := none }

/-- The offline-guard message. -/
def offlineMsg : String := "⚠️ شما آفلاین هستید. امکان ثبت فاکتور وجود ندارد."

/-- The empty-cart message. -/
def emptyCartMsg : String := "سبد خرید خالی است!"

/-- The product restores of an edited invoice: its product lines' full
quantities, to be added back to stock. -/
def invoiceRestores (inv : SaleInvoice) : List (String × ℤ) :=
  inv.items.filterMap fun it =>
    match it with
    | .prod i => some (i.id, i.quantity)
    | .serv _ => none

/-- `completeSale`.  Parameters beyond the source signature: `online` models
`navigator.onLine`, `now` the clock, `txId` the generated ledger-row uuid, and
`apiOk` whether the adapter promise resolves.  The returned state is the one
after the promise callbacks have settled (the edit path reloads from the
remote store, which this single-client model keeps in the same `AppState`). -/
def completeSale (s : AppState) (online : Bool) (cashier : String)
    (customerId : Option String) (now : ℤ) (txId : String) (apiOk : Bool) :
    ActionOutcome :=
  if !online then ⟨false, offlineMsg, none, s, [], []⟩
  else if s.cart.isEmpty then ⟨false, emptyCartMsg, none, s, [], []⟩
  else
    let newSubtotal := cartSubtotal s.cart
    let newTotalAmount := cartTotal s.cart
    let newTotalDiscount := newSubtotal - newTotalAmount
    match processCart s.products s.cart with
    | .error m => ⟨false, m, none, s, [], []⟩
    | .ok (updatedProducts, saleItems, stockUpdates) =>
      let invoiceId :=
        s.editingSaleInvoiceId.getD (generateNextId "F" (s.saleInvoices.map (·.id)))
      let finalInvoice : SaleInvoice :=
        { id := invoiceId
          type := "sale"
          originalInvoiceId := none
          items := saleItems
          subtotal := newSubtotal
          totalAmount := newTotalAmount
          totalDiscount := newTotalDiscount
          timestamp :=
            match s.editingSaleInvoiceId with
            | some _ =>
              ((s.saleInvoices.find? (fun i => i.id == invoiceId)).map (·.timestamp)).getD now
            | none => now
          cashier := cashier
          customerId := customerId }
      let customerUpdate : Option CustomerUpdate :=
        match customerId with
        | none => none
        | some cid =>
          match s.customers.find? (fun c => c.id == cid) with
          | none => none
          | some c =>
            some
              { id := cid
                newBalance := c.balance + finalInvoice.totalAmount
                transaction :=
                  { id := txId
                    customerId := cid
                    type := "credit_sale"
                    amount := finalInvoice.totalAmount
                    date := now
                    description := "فاکتور فروش #" ++ finalInvoice.id
                    invoiceId := some finalInvoice.id } }
      match s.editingSaleInvoiceId with
      | some eid =>
        let oldInvoice :=
          (s.saleInvoices.find? (fun i => i.id == eid)).getD defaultInvoice
        let stockRestores := invoiceRestores oldInvoice
        let stockDeductions := stockUpdates.map fun u =>
          (u.1,
            match lookupBatchStock s.products u.1 with
            | some st => st - u.2
            | none => 0)
        let custParams : Option CustUpdateParams :=
          match customerId with
          | none => none
          | some cid =>
            if oldInvoice.customerId == some cid then
              some
                { id := cid
                  oldAmount := oldInvoice.totalAmount
                  newAmount := finalInvoice.totalAmount
                  description := "فاکتور فروش #" ++ finalInvoice.id ++ " (ویرایش شده)" }
            else
              some
                { id := cid
                  oldAmount := 0
                  newAmount := finalInvoice.totalAmount
                  description := "فاکتور فروش #" ++ finalInvoice.id }
        let callsList :=
          [ApiCall.updateSale invoiceId finalInvoice stockRestores stockDeductions custParams]
        if apiOk then
          let s1 := apiUpdateSale s invoiceId finalInvoice stockRestores stockDeductions custParams
          ⟨true, "در حال ثبت فاکتور...", some finalInvoice,
            { s1 with cart := [], editingSaleInvoiceId := none }, callsList,
            ["✅ فاکتور ویرایش شد."]⟩
        else
          ⟨true, "در حال ثبت فاکتور...", some finalInvoice,
            { s with cart := [], editingSaleInvoiceId := none }, callsList, []⟩
      | none =>
        let callsList := [ApiCall.createSale finalInvoice stockUpdates customerUpdate]
        if apiOk then
          ⟨true, "در حال ثبت فاکتور...", some finalInvoice,
            { s with
              saleInvoices := finalInvoice :: s.saleInvoices
              products := updatedProducts
              customers :=
                match customerId with
                | some cid =>
                  s.customers.map fun c =>
                    if c.id == cid then
                      { c with balance := c.balance + finalInvoice.totalAmount }
                    else c
                | none => s.customers
              customerTransactions :=
                match customerUpdate with
                | some cu => cu.transaction :: s.customerTransactions
                | none => s.customerTransactions
              cart := [] }, callsList, ["✅ فاکتور با موفقیت ثبت شد."]⟩
        else
          ⟨true, "در حال ثبت فاکتور...", some finalInvoice, s, callsList,
            ["❌ خطا در ثبت فاکتور در سرور."]⟩

/-! ## `addSaleReturn` -/

/-- A requested return line: id, `type` discriminator, quantity. -/
structure ReturnLine where
  id : String
  rtype : String
  quantity : ℤ
deriving DecidableEq

/-- Replace a line's quantity (the `{ ...originalItem, quantity }` spread). -/
def setItemQty : CartItem → ℤ → CartItem
  | .prod i, q => .prod { i with quantity := q }
  | .serv sv, q => .serv { sv with quantity := q }

/-- The returned lines resolved against the original invoice: requests whose
id and type match an original line, carrying the requested quantity. -/
def resolveReturnItems (orig : SaleInvoice) (returnItems : List ReturnLine) :
    List CartItem :=
  returnItems.filterMap fun ri =>
    (orig.items.find? (fun it => itemId it == ri.id && itemType it == ri.rtype)).map
      (fun it => setItemQty it ri.quantity)

/-- `addSaleReturn`: build a linked return invoice at the original effective
prices, restore stock to the first batch of each returned product, and refund
the attached customer.  On adapter failure only a toast is shown. -/
def addSaleReturn (s : AppState) (online : Bool) (originalInvoiceId : String)
    (returnItems : List ReturnLine) (cashier : String) (now : ℤ) (txId : String)
    (apiOk : Bool) : ActionOutcome :=
  if !online then ⟨false, "⚠️ شما آفلاین هستید.", none, s, [], []⟩
  else
    match s.saleInvoices.find? (fun i => i.id == originalInvoiceId) with
    | none => ⟨false, "فاکتور اصلی یافت نشد.", none, s, [], []⟩
    | some orig =>
      let detailed := resolveReturnItems orig returnItems
      let returnTotal :=
        detailed.foldl (fun t it => t + getPriceFinal it * (itemQty it : ℚ)) 0
      let returnInvoiceId := generateNextId "R" (s.saleInvoices.map (·.id))
      let returnInvoice : SaleInvoice :=
        { id := returnInvoiceId
          type := "return"
          originalInvoiceId := some originalInvoiceId
          items := detailed
          subtotal := returnTotal
          totalAmount := returnTotal
          totalDiscount := 0
          timestamp := now
          cashier := cashier
          customerId := orig.customerId }
      let stockRestores := detailed.filterMap fun it =>
        match it with
        | .prod i => some (i.id, i.quantity)
        | .serv _ => none
      let refund := orig.customerId.map fun cid => (cid, returnTotal)
      let callsList := [ApiCall.createSaleReturn returnInvoice stockRestores refund]
      if apiOk then
        ⟨true, "در حال ثبت مرجوعی...", none,
          apiCreateSaleReturn s returnInvoice stockRestores refund now txId,
          callsList, ["✅ مرجوعی با موفقیت ثبت شد."]⟩
      else
        ⟨true, "در حال ثبت مرجوعی...", none, s, callsList, ["❌ خطا در ثبت مرجوعی."]⟩

/-! ## `addPurchaseInvoice` -/

/-- A raw purchase entry line as typed into the form (prices in the entry
currency). -/
structure PurchaseItemInput where
  productId : String
  quantity : ℤ
  purchasePrice : ℚ
  lotNumber : String
  expiryDate : Option ℤ
deriving DecidableEq

/-- The purchase form payload. -/
structure PurchaseInput where
  supplierId : String
  invoiceNumber : String
  items : List PurchaseItemInput
  timestamp : ℤ
  currency : Option String
  exchangeRate : Option ℚ
deriving DecidableEq

/-- Resolve a product name for denormalised display. -/
def productNameOf (products : List Product) (pid : String) : String :=
  ((products.find? (fun p => p.id == pid)).map (·.name)).getD "نامشخص"

/-- Convert the entered lines to stored lines: unit cost multiplied by the
exchange rate, so batches and COGS are in base currency. -/
def convertPurchaseItems (products : List Product) (rate : ℚ)
    (items : List PurchaseItemInput) : List PurchaseInvoiceItem :=
  items.map fun it =>
    { productId := it.productId
      productName := productNameOf products it.productId
      quantity := it.quantity
      purchasePrice := it.purchasePrice * rate
      lotNumber := it.lotNumber
      expiryDate := it.expiryDate }

/-- Total of stored purchase lines (base currency). -/
def purchaseItemsTotal (items : List PurchaseInvoiceItem) : ℚ :=
  items.foldl (fun t it => t + it.purchasePrice * (it.quantity : ℚ)) 0

/-- The batches created for a stored purchase invoice, one per line, with the
line's converted unit cost and the invoice timestamp as purchase date.
`uuid i` stands in for the `crypto.randomUUID()` drawn for the `i`-th line. -/
def purchaseBatches (inv : PurchaseInvoice) (uuid : ℕ → String) : List NewBatch :=
  inv.items.enum.map fun x =>
    { id := uuid x.1
      productId := x.2.productId
      lotNumber := x.2.lotNumber
      stock := x.2.quantity
      purchasePrice := x.2.purchasePrice
      purchaseDate := inv.timestamp
      expiryDate := x.2.expiryDate }

/-- Push one created batch onto its product's batch list. -/
def pushBatch (products : List Product) (nb : NewBatch) : List Product :=
  products.map fun p =>
    if p.id == nb.productId then
      { p with
        batches := p.batches ++
          [{ id := nb.id
             lotNumber := nb.lotNumber
             stock := nb.stock
             purchasePrice := nb.purchasePrice
             purchaseDate := nb.purchaseDate
             expiryDate := nb.expiryDate }] }
    else p

/-- `addPurchaseInvoice`: normalise a foreign-currency (USD) invoice into base
currency with the supplied exchange rate, create one batch per line at the
converted cost, add the base-currency total to the supplier balance, and
record a supplier ledger row carrying the original-currency face amount.
The ledger row's display description is modelled without its localised
number formatting. -/
def addPurchaseInvoice (s : AppState) (online : Bool) (input : PurchaseInput)
    (uuid : ℕ → String) (txId : String) (apiOk : Bool) : ActionOutcome :=
  if !online then ⟨false, "⚠️ شما آفلاین هستید.", none, s, [], []⟩
  else
    match s.suppliers.find? (fun sp => sp.id == input.supplierId) with
    | none => ⟨false, "تأمین کننده نامعتبر", none, s, [], []⟩
    | some supplier =>
      let invoiceId := generateNextId "P" (s.purchaseInvoices.map (·.id))
      let isUSD := input.currency == some "USD"
      let rate := if isUSD then input.exchangeRate.getD 0 else 1
      let finalItems := convertPurchaseItems s.products rate input.items
      let totalAmount := purchaseItemsTotal finalItems
      let finalInvoiceNumber :=
        if input.invoiceNumber == "" then invoiceId else input.invoiceNumber
      let invoice : PurchaseInvoice :=
        { id := invoiceId
          type := "purchase"
          originalInvoiceId := none
          supplierId := input.supplierId
          invoiceNumber := finalInvoiceNumber
          items := finalItems
          totalAmount := totalAmount
          timestamp := input.timestamp
          currency := input.currency
          exchangeRate := some rate }
      let newBatches := purchaseBatches invoice uuid
      let localProducts := newBatches.foldl pushBatch s.products
      let supplierUpdate : SupplierUpdate :=
        { id := supplier.id
          newBalance := supplier.balance + invoice.totalAmount
          transaction :=
            { id := txId
              supplierId := supplier.id
              type := "purchase"
              amount := if isUSD then invoice.totalAmount / rate else invoice.totalAmount
              date := invoice.timestamp
              description := "فاکتور خرید #" ++ invoice.invoiceNumber
              invoiceId := some invoice.id
              currency := input.currency } }
      let callsList := [ApiCall.createPurchase invoice supplierUpdate newBatches]
      if apiOk then
        ⟨true, "در حال ثبت...", none,
          { s with
            products := localProducts
            purchaseInvoices := invoice :: s.purchaseInvoices
            suppliers := s.suppliers.map fun sp =>
              if sp.id == supplier.id then
                { sp with balance := sp.balance + invoice.totalAmount }
              else sp
            supplierTransactions := supplierUpdate.transaction :: s.supplierTransactions },
          callsList, ["✅ فاکتور خرید ثبت شد."]⟩
      else
        ⟨true, "در حال ثبت...", none, s, callsList, ["❌ خطا در ثبت فاکتور خرید."]⟩

/-- The exchange rate `addPurchaseInvoice` applies: the entered rate for a
USD invoice, `1` otherwise. -/
def purchaseRate (input : PurchaseInput) : ℚ :=
  if input.currency == some "USD" then input.exchangeRate.getD 0 else 1

/-- The purchase invoice `addPurchaseInvoice` builds (named for reuse in the
component lemmas; it repeats the literal inside `addPurchaseInvoice`). -/
def purchaseInvoiceOf (s : AppState) (input : PurchaseInput) : PurchaseInvoice :=
  { id := generateNextId "P" (s.purchaseInvoices.map (·.id))
    type := "purchase"
    originalInvoiceId := none
    supplierId := input.supplierId
    invoiceNumber :=
      if input.invoiceNumber == "" then generateNextId "P" (s.purchaseInvoices.map (·.id))
      else input.invoiceNumber
    items := convertPurchaseItems s.products (purchaseRate input) input.items
    totalAmount :=
      purchaseItemsTotal (convertPurchaseItems s.products (purchaseRate input) input.items)
    timestamp := input.timestamp
    currency := input.currency
    exchangeRate := some (purchaseRate input) }

/-- The supplier ledger row `addPurchaseInvoice` books: the original-currency
face amount (base total divided by the rate for USD), tagged with the entered
currency. -/
def purchaseTxnOf (s : AppState) (input : PurchaseInput) (txId : String)
    (supId : String) : SupplierTransaction :=
  { id := txId
    supplierId := supId
    type := "purchase"
    amount :=
      if input.currency == some "USD" then
        (purchaseInvoiceOf s input).totalAmount / purchaseRate input
      else (purchaseInvoiceOf s input).totalAmount
    date := input.timestamp
    description := "فاکتور خرید #" ++ (purchaseInvoiceOf s input).invoiceNumber
    invoiceId := some (purchaseInvoiceOf s input).id
    currency := input.currency }

/-! ## `addPurchaseReturn` -/

/-- `addPurchaseReturn`: build a linked purchase-return invoice at original
unit costs, deduct each returned quantity from the first batch matching the
original lot number (clamped at zero), and debit the supplier. -/
def addPurchaseReturn (s : AppState) (online : Bool) (originalInvoiceId : String)
    (returnItems : List (String × ℤ)) (now : ℤ) (txId : String) (apiOk : Bool) :
    ActionOutcome :=
  if !online then ⟨false, "⚠️ شما آفلاین هستید.", none, s, [], []⟩
  else
    match s.purchaseInvoices.find? (fun i => i.id == originalInvoiceId) with
    | none => ⟨false, "فاکتور یافت نشد", none, s, [], []⟩
    | some orig =>
      let found := returnItems.filterMap fun ri =>
        (orig.items.find? (fun it => it.productId == ri.1)).map (fun it => (ri, it))
      let returnTotal :=
        found.foldl (fun t x => t + x.2.purchasePrice * (x.1.2 : ℚ)) 0
      let fullReturnItems := found.map fun x => { x.2 with quantity := x.1.2 }
      let stockDeductions := found.map fun x => (x.1.1, x.1.2, x.2.lotNumber)
      let returnInvoiceId := generateNextId "PR" (s.purchaseInvoices.map (·.id))
      let returnInvoice : PurchaseInvoice :=
        { id := returnInvoiceId
          type := "return"
          originalInvoiceId := some originalInvoiceId
          supplierId := orig.supplierId
          invoiceNumber := orig.invoiceNumber
          items := fullReturnItems
          totalAmount := returnTotal
          timestamp := now
          currency := none
          exchangeRate := none }
      let supplierRefund := (orig.supplierId, returnTotal)
      let callsList :=
        [ApiCall.createPurchaseReturn returnInvoice stockDeductions (some supplierRefund)]
      if apiOk then
        let prods := stockDeductions.foldl applyPurchaseReturnDeduction s.products
        let base :=
          { s with
            purchaseInvoices := returnInvoice :: s.purchaseInvoices
            products := prods }
        let after :=
          match s.suppliers.find? (fun sp => sp.id == orig.supplierId) with
          | none => base
          | some sp0 =>
            { base with
              suppliers := s.suppliers.map fun sp =>
                if sp.id == orig.supplierId then
                  { sp with balance := sp0.balance - returnTotal }
                else sp
              supplierTransactions :=
                { id := txId
                  supplierId := orig.supplierId
                  type := "purchase_return"
                  amount := returnTotal
                  date := now
                  description := "مرجوعی خرید #" ++ originalInvoiceId
                  invoiceId := some returnInvoice.id
                  currency := none } :: s.supplierTransactions }
        ⟨true, "در حال ثبت...", none, after, callsList, ["✅ مرجوعی خرید ثبت شد."]⟩
      else
        ⟨true, "در حال ثبت...", none, s, callsList, []⟩

/-! ## `processAndPaySalaries` -/

/-- `processAndPaySalaries`: pay each employee `monthlySalary - balance` when
that is positive, reset every balance to zero (excess advances are forgiven),
and book the grand total as a single `salary` expense; fail with no adapter
call when nothing is payable. -/
def processAndPaySalaries (s : AppState) (online : Bool) (now : ℤ)
    (uuid : ℕ → String) (expenseId : String) (apiOk : Bool) : ActionOutcome :=
  if !online then ⟨false, "⚠️ شما آفلاین هستید.", none, s, [], []⟩
  else
    let qualifying := s.employees.filter fun e => decide (0 < e.monthlySalary - e.balance)
    let newTransactions : List PayrollTransaction :=
      qualifying.enum.map fun x =>
        { id := uuid x.1
          employeeId := x.2.id
          type := "salary_payment"
          amount := x.2.monthlySalary - x.2.balance
          date := now
          description := "حقوق ماهانه" }
    let totalPaid := qualifying.foldl (fun t e => t + (e.monthlySalary - e.balance)) 0
    if totalPaid = 0 then ⟨false, "حقوقی برای پرداخت نیست.", none, s, [], []⟩
    else
      let expense : Expense :=
        { id := expenseId
          category := "salary"
          description := "حقوق ماهانه"
          amount := totalPaid
          date := now }
      let callsList :=
        [ApiCall.processPayroll (s.employees.map (·.id)) newTransactions expense]
      if apiOk then
        ⟨true, "در حال پردازش...", none,
          { s with
            employees := s.employees.map fun e => { e with balance := 0 }
            payrollTransactions := newTransactions ++ s.payrollTransactions
            expenses := expense :: s.expenses }, callsList, ["✅ حقوق‌ها پرداخت شد."]⟩
      else
        ⟨true, "در حال پردازش...", none, s, callsList, []⟩

/-! ## Backup / restore row mappings

`exportData` dumps the in-memory state verbatim; `api.clearAndRestoreData`
wipes every table and reinserts rows from the document, and the next
`fetchData` maps the rows back through the adapter's read mappers
(`mapProduct`, `mapSaleInvoice`, `mapPurchaseInvoice`, `getTransactions`).
The functions below model, per entity, the insert shape used by the restore
and the read mapping used by the reload.  SQL `NULL` is `none`; JavaScript's
`x || d` idiom (used by the read mappers) is `jsOr`. -/

/-- `x || d` on an optional integer: `null` and `0` fall back to the default. -/
def jsOrInt (o : Option ℤ) (d : ℤ) : ℤ :=
  match o with
  | none => d
  | some v => if v = 0 then d else v

/-- `x || d` on an optional rational. -/
def jsOrRat (o : Option ℚ) (d : ℚ) : ℚ :=
  match o with
  | none => d
  | some v => if v = 0 then d else v

/-- A `product_batches` row. -/
structure BatchRow where
  id : String
  productId : String
  lotNumber : String
  stock : ℤ
  purchasePrice : ℚ
  purchaseDate : ℤ
  expiryDate : Option ℤ
deriving DecidableEq

/-- Restore insert for a batch of a product. -/
def batchToRow (pid : String) (b : ProductBatch) : BatchRow :=
  { id := b.id
    productId := pid
    lotNumber := b.lotNumber
    stock := b.stock
    purchasePrice := b.purchasePrice
    purchaseDate := b.purchaseDate
    expiryDate := b.expiryDate }

/-- `mapProduct`'s batch read mapping. -/
def rowToBatch (r : BatchRow) : ProductBatch :=
  { id := r.id
    lotNumber := r.lotNumber
    stock := r.stock
    purchasePrice := r.purchasePrice
    purchaseDate := r.purchaseDate
    expiryDate := r.expiryDate }

/-- A `products` row. -/
structure ProductRow where
  id : String
  name : String
  salePrice : ℚ
  barcode : Option String
  manufacturer : Option String
  itemsPerPackage : Option ℤ
deriving DecidableEq

/-- Restore insert for a product. -/
def productToRow (p : Product) : ProductRow :=
  { id := p.id
    name := p.name
    salePrice := p.salePrice
    barcode := p.barcode
    manufacturer := p.manufacturer
    itemsPerPackage := p.itemsPerPackage }

/-- `mapProduct`: read a product row and its batch rows back
(`itemsPerPackage` runs through `Number(...) || 1`). -/
def rowToProduct (r : ProductRow) (batchRows : List BatchRow) : Product :=
  { id := r.id
    name := r.name
    salePrice := r.salePrice
    barcode := r.barcode
    manufacturer := r.manufacturer
    itemsPerPackage := some (jsOrInt r.itemsPerPackage 1)
    batches := batchRows.map rowToBatch }

/-- A `sale_invoice_items` row. -/
structure SaleItemRow where
  invoiceId : String
  itemId : String
  rtype : String
  name : String
  quantity : ℤ
  price : ℚ
  finalPrice : Option ℚ
  purchasePrice : ℚ
deriving DecidableEq

/-- Restore insert for one sale line: a product line stores its list price,
its override when present and otherwise its list price again, and its
snapshotted cost; a service line stores its price, a `NULL` final price (the
source reads the nonexistent `salePrice` field) and a zero cost. -/
def saleItemToRow (invId : String) (it : CartItem) : SaleItemRow :=
  match it with
  | .prod i =>
    { invoiceId := invId
      itemId := i.id
      rtype := "product"
      name := i.name
      quantity := i.quantity
      price := i.salePrice
      finalPrice := some (i.finalPrice.getD i.salePrice)
      purchasePrice := i.purchasePrice }
  | .serv sv =>
    { invoiceId := invId
      itemId := sv.id
      rtype := "service"
      name := sv.name
      quantity := sv.quantity
      price := sv.price
      finalPrice := none
      purchasePrice := 0 }

/-- `itemsPerPackage` after `fetchData`'s hydration step: the restored
product's (already-normalised) value when the product still exists, else the
mapper's default of 1. -/
def hydratePkg (products : List Product) (pid : String) : Option ℤ :=
  match products.find? (fun p => p.id == pid) with
  | some p => some (jsOrInt p.itemsPerPackage 1)
  | none => some 1

/-- `mapSaleInvoice`'s item read mapping plus hydration: `Number(final_price)`
turns a SQL `NULL` into `0`, so a read-back product line always carries a
defined `finalPrice`. -/
def rowToSaleItem (products : List Product) (r : SaleItemRow) : CartItem :=
  if r.rtype == "product" then
    .prod
      { id := r.itemId
        name := r.name
        salePrice := r.price
        itemsPerPackage := hydratePkg products r.itemId
        quantity := r.quantity
        purchasePrice := r.purchasePrice
        finalPrice := some (r.finalPrice.getD 0) }
  else
    .serv
      { id := r.itemId
        name := r.name
        price := r.price
        quantity := r.quantity }

/-- A `sale_invoices` header row. -/
structure SaleHeaderRow where
  id : String
  type : String
  originalInvoiceId : Option String
  subtotal : ℚ
  totalDiscount : ℚ
  totalAmount : ℚ
  timestamp : ℤ
  cashier : String
  customerId : Option String
deriving DecidableEq

/-- Restore insert for a sale invoice header. -/
def saleHeaderToRow (inv : SaleInvoice) : SaleHeaderRow :=
  { id := inv.id
    type := inv.type
    originalInvoiceId := inv.originalInvoiceId
    subtotal := inv.subtotal
    totalDiscount := inv.totalDiscount
    totalAmount := inv.totalAmount
    timestamp := inv.timestamp
    cashier := inv.cashier
    customerId := inv.customerId }

/-- `mapSaleInvoice` on a header row and the already-mapped items. -/
def rowToSaleInvoice (r : SaleHeaderRow) (items : List CartItem) : SaleInvoice :=
  { id := r.id
    type := r.type
    originalInvoiceId := r.originalInvoiceId
    items := items
    subtotal := r.subtotal
    totalDiscount := r.totalDiscount
    totalAmount := r.totalAmount
    timestamp := r.timestamp
    cashier := r.cashier
    customerId := r.customerId }

/-- The full export-then-restore-then-reload round trip of one sale invoice,
hydrated against the given (restored) product list. -/
def roundTripSaleInvoice (products : List Product) (inv : SaleInvoice) : SaleInvoice :=
  rowToSaleInvoice (saleHeaderToRow inv)
    (inv.items.map fun it => rowToSaleItem products (saleItemToRow inv.id it))

/-- A `purchase_invoices` header row. -/
structure PurchaseHeaderRow where
  id : String
  type : String
  originalInvoiceId : Option String
  supplierId : String
  invoiceNumber : String
  totalAmount : ℚ
  timestamp : ℤ
  currency : Option String
  exchangeRate : Option ℚ
deriving DecidableEq

/-- Restore insert for a purchase invoice header. -/
def purchaseHeaderToRow (inv : PurchaseInvoice) : PurchaseHeaderRow :=
  { id := inv.id
    type := inv.type
    originalInvoiceId := inv.originalInvoiceId
    supplierId := inv.supplierId
    invoiceNumber := inv.invoiceNumber
    totalAmount := inv.totalAmount
    timestamp := inv.timestamp
    currency := inv.currency
    exchangeRate := inv.exchangeRate }

/-- `mapPurchaseInvoice` on a header row and already-mapped items: a missing
currency reads back as `AFN` and a missing or zero exchange rate as `1`. -/
def rowToPurchaseInvoice (r : PurchaseHeaderRow) (items : List PurchaseInvoiceItem) :
    PurchaseInvoice :=
  { id := r.id
    type := r.type
    originalInvoiceId := r.originalInvoiceId
    supplierId := r.supplierId
    invoiceNumber := r.invoiceNumber
    items := items
    totalAmount := r.totalAmount
    timestamp := r.timestamp
    currency := some (r.currency.getD "AFN")
    exchangeRate := some (jsOrRat r.exchangeRate 1) }

/-- A `purchase_invoice_items` row. -/
structure PurchaseItemRow where
  invoiceId : String
  productId : String
  productName : String
  quantity : ℤ
  purchasePrice : ℚ
  lotNumber : String
  expiryDate : Option ℤ
deriving DecidableEq

/-- Restore insert for one purchase line. -/
def purchaseItemToRow (invId : String) (it : PurchaseInvoiceItem) : PurchaseItemRow :=
  { invoiceId := invId
    productId := it.productId
    productName := it.productName
    quantity := it.quantity
    purchasePrice := it.purchasePrice
    lotNumber := it.lotNumber
    expiryDate := it.expiryDate }

/-- `mapPurchaseInvoice`'s item read mapping. -/
def rowToPurchaseItem (r : PurchaseItemRow) : PurchaseInvoiceItem :=
  { productId := r.productId
    productName := r.productName
    quantity := r.quantity
    purchasePrice := r.purchasePrice
    lotNumber := r.lotNumber
    expiryDate := r.expiryDate }

/-- Round trip of one purchase invoice. -/
def roundTripPurchaseInvoice (inv : PurchaseInvoice) : PurchaseInvoice :=
  rowToPurchaseInvoice (purchaseHeaderToRow inv)
    (inv.items.map fun it => rowToPurchaseItem (purchaseItemToRow inv.id it))

/-- Round trip of one product together with its batches. -/
def roundTripProduct (p : Product) : Product :=
  rowToProduct (productToRow p) (p.batches.map (batchToRow p.id))

/-- A `customer_transactions` row. -/
structure CustomerTxnRow where
  id : String
  customerId : String
  type : String
  amount : ℚ
  date : ℤ
  description : String
  invoiceId : Option String
deriving DecidableEq

/-- Restore insert for a customer ledger row. -/
def customerTxnToRow (t : CustomerTransaction) : CustomerTxnRow :=
  { id := t.id
    customerId := t.customerId
    type := t.type
    amount := t.amount
    date := t.date
    description := t.description
    invoiceId := t.invoiceId }

/-- `getTransactions`' customer read mapping. -/
def rowToCustomerTxn (r : CustomerTxnRow) : CustomerTransaction :=
  { id := r.id
    customerId := r.customerId
    type := r.type
    amount := r.amount
    date := r.date
    description := r.description
    invoiceId := r.invoiceId }

/-- A `supplier_transactions` row. -/
structure SupplierTxnRow where
  id : String
  supplierId : String
  type : String
  amount : ℚ
  date : ℤ
  description : String
  invoiceId : Option String
  currency : Option String
deriving DecidableEq

/-- Restore insert for a supplier ledger row. -/
def supplierTxnToRow (t : SupplierTransaction) : SupplierTxnRow :=
  { id := t.id
    supplierId := t.supplierId
    type := t.type
    amount := t.amount
    date := t.date
    description := t.description
    invoiceId := t.invoiceId
    currency := t.currency }

/-- `getTransactions`' supplier read mapping: a missing currency reads back
as `AFN`. -/
def rowToSupplierTxn (r : SupplierTxnRow) : SupplierTransaction :=
  { id := r.id
    supplierId := r.supplierId
    type := r.type
    amount := r.amount
    date := r.date
    description := r.description
    invoiceId := r.invoiceId
    currency := some (r.currency.getD "AFN") }

/-- A `payroll_transactions` row. -/
structure PayrollTxnRow where
  id : String
  employeeId : String
  type : String
  amount : ℚ
  date : ℤ
  description : String
deriving DecidableEq

/-- Restore insert for a payroll ledger row. -/
def payrollTxnToRow (t : PayrollTransaction) : PayrollTxnRow :=
  { id := t.id
    employeeId := t.employeeId
    type := t.type
    amount := t.amount
    date := t.date
    description := t.description }

/-- `getTransactions`' payroll read mapping. -/
def rowToPayrollTxn (r : PayrollTxnRow) : PayrollTransaction :=
  { id := r.id
    employeeId := r.employeeId
    type := r.type
    amount := r.amount
    date := r.date
    description := r.description }

/-! ## State invariants and auxiliary quantities -/

/-- Sum of the stocks of a batch list. -/
def sumStocks (l : List ProductBatch) : ℤ :=
  (l.map (·.stock)).sum

/-- Every batch of every product has nonnegative stock. -/
def stocksNonneg (ps : List Product) : Prop :=
  ∀ p ∈ ps, ∀ b ∈ p.batches, 0 ≤ b.stock

/-- All batch ids across all products are distinct. -/
def batchIdsNodup (ps : List Product) : Prop :=
  (ps.flatMap fun p => p.batches.map (·.id)).Nodup

/-- The product ids appearing in product lines of a cart. -/
def cartProdIds (cart : List CartItem) : List String :=
  cart.filterMap fun it =>
    match it with
    | .prod i => some i.id
    | .serv _ => none

/-- The product lines of a cart. -/
def cartProdItems (cart : List CartItem) : List ProdItem :=
  cart.filterMap fun it =>
    match it with
    | .prod i => some i
    | .serv _ => none

/-- Every stored sale invoice has nonnegative line quantities. -/
def invoiceQtysNonneg (s : AppState) : Prop :=
  ∀ inv ∈ s.saleInvoices, ∀ it ∈ inv.items, 0 ≤ itemQty it

/-- Every batch with the given id in the product list has at least the given
stock (the bound a pending deduction must respect). -/
def boundIn (ps : List Product) (bid : String) (q : ℤ) : Prop :=
  ∀ p ∈ ps, ∀ b ∈ p.batches, b.id = bid → q ≤ b.stock

instance (ps : List Product) : Decidable (stocksNonneg ps) :=
  inferInstanceAs (Decidable (∀ p ∈ ps, ∀ b ∈ p.batches, 0 ≤ b.stock))

instance (ps : List Product) : Decidable (batchIdsNodup ps) :=
  inferInstanceAs (Decidable (List.Nodup (ps.flatMap fun p => p.batches.map fun b : ProductBatch => b.id)))

instance (s : AppState) : Decidable (invoiceQtysNonneg s) :=
  inferInstanceAs (Decidable (∀ inv ∈ s.saleInvoices, ∀ it ∈ inv.items, 0 ≤ itemQty it))

/-- The product list `processCart` threads through after one product line. -/
def lineUpdate (ps : List Product) (p : Product) (q : ℤ) : List Product :=
  ps.map fun r =>
    if r.id == p.id then
      { r with
        batches :=
          applyStockUpdates (runDeduction (deductionOrder p.batches) q).stockUpdates
            r.batches }
    else r

/-- A cart product line exceeds its product's total available stock
(vacuously false when the product is missing). -/
def lineExceedsStock (ps : List Product) (i : ProdItem) : Prop :=
  ((ps.find? (fun r => r.id == i.id)).map totalStock).getD i.quantity < i.quantity

instance (ps : List Product) (i : ProdItem) : Decidable (lineExceedsStock ps i) :=
  inferInstanceAs
    (Decidable (((ps.find? (fun r => r.id == i.id)).map totalStock).getD i.quantity < i.quantity))

/-- Following the spec's words, the shape a sale line takes after a backup
round trip: a product line's missing per-line override is materialised as its
list price and its package size is rehydrated from the restored product;
a service line is unchanged. -/
def restoredSaleItem (products : List Product) : CartItem → CartItem
  | .prod i =>
    .prod
      { i with
        finalPrice := some (i.finalPrice.getD i.salePrice)
        itemsPerPackage := hydratePkg products i.id }
  | .serv sv => .serv sv

/-! ## Concrete fixtures -/

/-- Batch expiring first (stock 3, unit cost 10). -/
def bExp1 : ProductBatch :=
  { id := "b1", lotNumber := "L1", stock := 3, purchasePrice := 10,
    purchaseDate := 100, expiryDate := some 500 }

/-- Batch expiring second (stock 10, unit cost 20). -/
def bExp2 : ProductBatch :=
  { id := "b2", lotNumber := "L2", stock := 10, purchasePrice := 20,
    purchaseDate := 200, expiryDate := some 600 }

/-- A product with two dated batches, total stock 13. -/
def pPen : Product :=
  { id := "p1", name := "قلم", salePrice := 50, barcode := none,
    manufacturer := none, itemsPerPackage := none, batches := [bExp1, bExp2] }

/-- A cart line for `pPen` at the list price. -/
def cartLineQty (q : ℤ) : CartItem :=
  .prod
    { id := "p1", name := "قلم", salePrice := 50, itemsPerPackage := none,
      quantity := q, purchasePrice := 0, finalPrice := none }

/-- A cart line whose override raises the price above list. -/
def cartLineOverride : CartItem :=
  .prod
    { id := "p1", name := "قلم", salePrice := 50, itemsPerPackage := none,
      quantity := 1, purchasePrice := 0, finalPrice := some 60 }

/-- A customer with prior balance 100. -/
def cust1 : Customer :=
  { id := "c1", name := "مشتری", phone := none, creditLimit := none, balance := 100 }

/-- A supplier with prior balance 1000. -/
def sup1 : Supplier :=
  { id := "s1", name := "تأمین", contactPerson := none, phone := none,
    address := none, balance := 1000 }

/-- Employee owed 400 net (salary 500, advances 100). -/
def emp1 : Employee :=
  { id := "e1", name := "الف", position := "فروشنده", monthlySalary := 500, balance := 100 }

/-- Employee whose advances exceed the salary (nothing payable). -/
def emp2 : Employee :=
  { id := "e2", name := "ب", position := "صندوقدار", monthlySalary := 400, balance := 450 }

/-- A small base application state. -/
def baseState : AppState :=
  { products := [pPen], saleInvoices := [], purchaseInvoices := [],
    customers := [cust1], suppliers := [sup1], employees := [emp1, emp2],
    expenses := [], cart := [], customerTransactions := [],
    supplierTransactions := [], payrollTransactions := [],
    editingSaleInvoiceId := none }

/-- A stored sale invoice for the customer, total 100, two units of `pPen`. -/
def invF1 : SaleInvoice :=
  { id := "F1", type := "sale", originalInvoiceId := none,
    items := [cartLineQty 2], subtotal := 100, totalDiscount := 0,
    totalAmount := 100, timestamp := 300, cashier := "ali", customerId := some "c1" }

/-- The base state with the stored invoice. -/
def stWithInv : AppState := { baseState with saleInvoices := [invF1] }

/-- A stored purchase invoice of 4 units of `pPen` from lot L1. -/
def invP1 : PurchaseInvoice :=
  { id := "P1", type := "purchase", originalInvoiceId := none, supplierId := "s1",
    invoiceNumber := "P1",
    items := [{ productId := "p1", productName := "قلم", quantity := 4,
                purchasePrice := 10, lotNumber := "L1", expiryDate := none }],
    totalAmount := 40, timestamp := 250, currency := some "AFN", exchangeRate := some 1 }

/-- The base state with the stored purchase invoice. -/
def stWithPur : AppState := { baseState with purchaseInvoices := [invP1] }

/-- A USD purchase entry: 5 units at 2 USD each, exchange rate 70. -/
def purInputUSD : PurchaseInput :=
  { supplierId := "s1", invoiceNumber := "", timestamp := 400,
    items := [{ productId := "p1", quantity := 5, purchasePrice := 2,
                lotNumber := "L9", expiryDate := none }],
    currency := some "USD", exchangeRate := some 70 }

/-- An AFN purchase entry: 5 units at 2 AFN each. -/
def purInputAFN : PurchaseInput :=
  { supplierId := "s1", invoiceNumber := "", timestamp := 400,
    items := [{ productId := "p1", quantity := 5, purchasePrice := 2,
                lotNumber := "L9", expiryDate := none }],
    currency := some "AFN", exchangeRate := none }

/-- A deterministic stand-in for the uuid generator. -/
def uuidFn (n : ℕ) : String := "u" ++ toString n

/-- A cart asking for 99 units of `pPen` (total stock 13). -/
def c2State : AppState := { baseState with cart := [cartLineQty 99] }

/-- Editing invoice `F1` with a new cart of 3 units. -/
def editState : AppState :=
  { stWithInv with cart := [cartLineQty 3], editingSaleInvoiceId := some "F1" }

/-- A create-mode cart of 2 units at list price. -/
def saleState : AppState := { baseState with cart := [cartLineQty 2] }

/-- A create-mode cart whose single line is overridden above list price. -/
def negDiscountState : AppState := { baseState with cart := [cartLineOverride] }

/-- A sale invoice holding a product line without a per-line override (its
round trip through the backup format materialises the override). -/
def invNoOverride : SaleInvoice :=
  { id := "F7", type := "sale", originalInvoiceId := none,
    items := [cartLineQty 1], subtotal := 50, totalDiscount := 0,
    totalAmount := 50, timestamp := 310, cashier := "ali", customerId := none }

/-! ## Lemmas: sorting -/

theorem sortByKey_perm (key : α → ℤ) (l : List α) : List.Perm (sortByKey key l) l :=
  List.perm_insertionSort _ l

theorem sortByKey_sorted (key : α → ℤ) (l : List α) :
    List.Sorted (fun a b => key a ≤ key b) (sortByKey key l) := by
  haveI : IsTotal α fun a b => key a ≤ key b := ⟨fun a b => le_total (key a) (key b)⟩
  haveI : IsTrans α fun a b => key a ≤ key b := ⟨fun _ _ _ h₁ h₂ => le_trans h₁ h₂⟩
  exact List.sorted_insertionSort _ l

/-! ## Lemmas: the deduction loop -/

theorem sumStocks_nil : sumStocks [] = 0 := rfl

theorem sumStocks_cons (b : ProductBatch) (l : List ProductBatch) :
    sumStocks (b :: l) = b.stock + sumStocks l := by
  simp [sumStocks]

theorem sumStocks_nonneg (l : List ProductBatch) (h : ∀ b ∈ l, 0 ≤ b.stock) :
    0 ≤ sumStocks l := by
  induction l with
  | nil => simp [sumStocks_nil]
  | cons b bs ih =>
    rw [sumStocks_cons]
    have := h b (List.mem_cons_self _ _)
    have := ih fun x hx => h x (List.mem_cons_of_mem _ hx)
    omega

theorem consumedSum_nil (q : ℤ) : consumedSum (specConsume q []) = 0 := rfl

theorem consumedSum_cons (b : ProductBatch) (l : List ProductBatch) (q : ℤ)
    (h : ¬q ≤ 0) :
    consumedSum (specConsume q (b :: l)) =
      min q b.stock + consumedSum (specConsume (q - min q b.stock) l) := by
  simp [specConsume, if_neg h, consumedSum]

theorem consumedSum_of_nonpos (b : ProductBatch) (l : List ProductBatch) (q : ℤ)
    (h : q ≤ 0) : consumedSum (specConsume q (b :: l)) = 0 := by
  simp [specConsume, if_pos h, consumedSum]

theorem runDeduction_remaining (l : List ProductBatch) (q : ℤ) :
    (runDeduction l q).remaining = q - consumedSum (specConsume q l) := by
  induction l generalizing q with
  | nil => simp [runDeduction, consumedSum_nil]
  | cons b bs ih =>
    by_cases h : q ≤ 0
    · simp [runDeduction, if_pos h, consumedSum_of_nonpos b bs q h]
    · rw [consumedSum_cons b bs q h]
      simp only [runDeduction, if_neg h]
      rw [ih]
      ring

theorem runDeduction_value (l : List ProductBatch) (q : ℤ) :
    (runDeduction l q).totalPurchaseValue = consumedCost (specConsume q l) := by
  induction l generalizing q with
  | nil => simp [runDeduction, specConsume, consumedCost]
  | cons b bs ih =>
    by_cases h : q ≤ 0
    · simp [runDeduction, if_pos h, specConsume, consumedCost]
    · simp only [runDeduction, if_neg h, specConsume, consumedCost, List.map_cons,
        List.sum_cons]
      rw [ih]
      rfl

theorem runDeduction_updates (l : List ProductBatch) (q : ℤ) :
    (runDeduction l q).stockUpdates =
      (specConsume q l).map fun x => (x.1.id, x.1.stock - x.2) := by
  induction l generalizing q with
  | nil => simp [runDeduction, specConsume]
  | cons b bs ih =>
    by_cases h : q ≤ 0
    · simp [runDeduction, if_pos h, specConsume]
    · simp only [runDeduction, if_neg h, specConsume, List.map_cons]
      rw [ih]

theorem consumedSum_of_le (l : List ProductBatch) (q : ℤ) (h0 : 0 ≤ q)
    (h : q ≤ sumStocks l) (hpos : ∀ b ∈ l, 0 ≤ b.stock) :
    consumedSum (specConsume q l) = q := by
  induction l generalizing q with
  | nil =>
    rw [sumStocks_nil] at h
    rw [consumedSum_nil]
    omega
  | cons b bs ih =>
    by_cases hq : q ≤ 0
    · rw [consumedSum_of_nonpos b bs q hq]
      omega
    · have hbs : ∀ x ∈ bs, 0 ≤ x.stock := fun x hx => hpos x (List.mem_cons_of_mem _ hx)
      have hb : 0 ≤ b.stock := hpos b (List.mem_cons_self _ _)
      have hbsum : 0 ≤ sumStocks bs := sumStocks_nonneg bs hbs
      rw [sumStocks_cons] at h
      have hrec : consumedSum (specConsume (q - min q b.stock) bs) = q - min q b.stock :=
        ih (q - min q b.stock) (by omega) (by omega) hbs
      rw [consumedSum_cons b bs q hq, hrec]
      ring

theorem specConsume_newStock_nonneg (l : List ProductBatch) (q : ℤ) :
    ∀ x ∈ specConsume q l, 0 ≤ x.1.stock - x.2 := by
  induction l generalizing q with
  | nil => simp [specConsume]
  | cons b bs ih =>
    by_cases hq : q ≤ 0
    · simp [specConsume, if_pos hq]
    · simp only [specConsume, if_neg hq, List.mem_cons]
      rintro x (rfl | hx)
      · show 0 ≤ b.stock - min q b.stock
        omega
      · exact ih _ x hx

theorem consumedSum_le_sumStocks (l : List ProductBatch) (q : ℤ)
    (hpos : ∀ b ∈ l, 0 ≤ b.stock) :
    consumedSum (specConsume q l) ≤ sumStocks l := by
  induction l generalizing q with
  | nil => rw [consumedSum_nil, sumStocks_nil]
  | cons b bs ih =>
    have hbs : ∀ x ∈ bs, 0 ≤ x.stock := fun x hx => hpos x (List.mem_cons_of_mem _ hx)
    have hb : 0 ≤ b.stock := hpos b (List.mem_cons_self _ _)
    have hbsum : 0 ≤ sumStocks bs := sumStocks_nonneg bs hbs
    by_cases hq : q ≤ 0
    · rw [consumedSum_of_nonpos b bs q hq, sumStocks_cons]
      omega
    · have hih := ih (q - min q b.stock) hbs
      rw [consumedSum_cons b bs q hq, sumStocks_cons]
      omega

/-! ## Lemmas: the deduction order -/

theorem deductionOrder_mem_pos (bs : List ProductBatch) :
    ∀ b ∈ deductionOrder bs, 0 < b.stock := by
  intro b hb
  rcases List.mem_append.1 hb with h | h
  · have := (sortByKey_perm expiryKey _).mem_iff.1 h
    have := List.of_mem_filter this
    simp only [Bool.and_eq_true, decide_eq_true_eq] at this
    exact this.2
  · have := (sortByKey_perm (fun b : ProductBatch => b.purchaseDate) _).mem_iff.1 h
    have := List.of_mem_filter this
    simp only [Bool.and_eq_true, decide_eq_true_eq] at this
    exact this.2

theorem sumStocks_perm (l₁ l₂ : List ProductBatch) (h : List.Perm l₁ l₂) :
    sumStocks l₁ = sumStocks l₂ := by
  unfold sumStocks
  exact (h.map fun b => b.stock).sum_eq

theorem sumStocks_filter_split (l : List ProductBatch)
    (h : ∀ b ∈ l, 0 ≤ b.stock) :
    sumStocks (l.filter fun b => b.expiryDate.isSome && decide (0 < b.stock)) +
      sumStocks (l.filter fun b => b.expiryDate.isNone && decide (0 < b.stock)) =
      sumStocks l := by
  induction l with
  | nil => simp [sumStocks_nil]
  | cons b bs ih =>
    have hb : 0 ≤ b.stock := h b (List.mem_cons_self _ _)
    have ihbs := ih fun x hx => h x (List.mem_cons_of_mem _ hx)
    rw [List.filter_cons, List.filter_cons, sumStocks_cons]
    by_cases hp : 0 < b.stock
    · cases he : b.expiryDate with
      | none =>
        simp only [he, Option.isSome_none, Option.isNone_none, Bool.false_and,
          Bool.true_and, decide_eq_true hp, Bool.false_eq_true, if_false, if_true,
          sumStocks_cons]
        omega
      | some d =>
        simp only [he, Option.isSome_some, Option.isNone_some, Bool.false_and,
          Bool.true_and, decide_eq_true hp, Bool.false_eq_true, if_false, if_true,
          sumStocks_cons]
        omega
    · have hz : b.stock = 0 := le_antisymm (by omega) hb
      have hdec : decide (0 < b.stock) = false := by simp [hp]
      simp only [hdec, Bool.and_false, Bool.false_eq_true, if_false]
      omega

theorem sumStocks_deductionOrder_eq (bs : List ProductBatch)
    (h : ∀ b ∈ bs, 0 ≤ b.stock) :
    sumStocks (deductionOrder bs) = sumStocks bs := by
  have h1 : sumStocks (expiryPart bs) =
      sumStocks (bs.filter fun b => b.expiryDate.isSome && decide (0 < b.stock)) :=
    sumStocks_perm _ _ (sortByKey_perm _ _)
  have h2 : sumStocks (noExpiryPart bs) =
      sumStocks (bs.filter fun b => b.expiryDate.isNone && decide (0 < b.stock)) :=
    sumStocks_perm _ _ (sortByKey_perm _ _)
  have happ : sumStocks (deductionOrder bs) =
      sumStocks (expiryPart bs) + sumStocks (noExpiryPart bs) := by
    simp [deductionOrder, sumStocks]
  rw [happ, h1, h2, sumStocks_filter_split bs h]

theorem totalStock_eq_sumStocks (p : Product) : totalStock p = sumStocks p.batches := rfl

theorem runDeduction_success (bs : List ProductBatch) (q : ℤ) (h0 : 0 ≤ q)
    (hle : q ≤ sumStocks bs) (h : ∀ b ∈ bs, 0 ≤ b.stock) :
    (runDeduction (deductionOrder bs) q).remaining ≤ 0 := by
  rw [runDeduction_remaining]
  have hpos : ∀ b ∈ deductionOrder bs, 0 ≤ b.stock :=
    fun b hb => le_of_lt (deductionOrder_mem_pos bs b hb)
  have := consumedSum_of_le (deductionOrder bs) q h0
    (by rw [sumStocks_deductionOrder_eq bs h]; exact hle) hpos
  omega

theorem runDeduction_failure (bs : List ProductBatch) (q : ℤ)
    (hlt : sumStocks bs < q) (h : ∀ b ∈ bs, 0 ≤ b.stock) :
    0 < (runDeduction (deductionOrder bs) q).remaining := by
  rw [runDeduction_remaining]
  have hpos : ∀ b ∈ deductionOrder bs, 0 ≤ b.stock :=
    fun b hb => le_of_lt (deductionOrder_mem_pos bs b hb)
  have := consumedSum_le_sumStocks (deductionOrder bs) q hpos
  rw [sumStocks_deductionOrder_eq bs h] at this
  omega

/-! ## Lemmas: processing the cart -/

theorem runDeduction_nonpos (l : List ProductBatch) (q : ℤ) (h : q ≤ 0) :
    runDeduction l q = ⟨q, 0, []⟩ := by
  cases l with
  | nil => rfl
  | cons b bs => simp [runDeduction, if_pos h]

theorem runDeduction_updates_nonneg (l : List ProductBatch) (q : ℤ) :
    ∀ u ∈ (runDeduction l q).stockUpdates, 0 ≤ u.2 := by
  rw [runDeduction_updates]
  intro u hu
  simp only [List.mem_map] at hu
  obtain ⟨x, hx, rfl⟩ := hu
  exact specConsume_newStock_nonneg l q x hx

theorem applyStockUpdates_mem (us : List (String × ℤ)) (bs : List ProductBatch) :
    ∀ b' ∈ applyStockUpdates us bs, ∃ b ∈ bs,
      b' = b ∨ ∃ u ∈ us, b' = { b with stock := u.2 } := by
  intro b' hb'
  simp only [applyStockUpdates, List.mem_map] at hb'
  obtain ⟨b, hb, hb'eq⟩ := hb'
  refine ⟨b, hb, ?_⟩
  rcases hfind : us.find? (fun u => u.1 == b.id) with _ | u
  · rw [hfind] at hb'eq
    exact Or.inl hb'eq.symm
  · rw [hfind] at hb'eq
    exact Or.inr ⟨u, List.mem_of_find?_eq_some hfind, hb'eq.symm⟩

theorem applyStockUpdates_nonneg (us : List (String × ℤ)) (bs : List ProductBatch)
    (hus : ∀ u ∈ us, 0 ≤ u.2) (hbs : ∀ b ∈ bs, 0 ≤ b.stock) :
    ∀ b' ∈ applyStockUpdates us bs, 0 ≤ b'.stock := by
  intro b' hb'
  obtain ⟨b, hb, h | ⟨u, hu, rfl⟩⟩ := applyStockUpdates_mem us bs b' hb'
  · exact h ▸ hbs b hb
  · exact hus u hu

theorem processCart_cons_prod_ok (ps : List Product) (i : ProdItem)
    (rest : List CartItem) (p : Product)
    (hfind : ps.find? (fun r => r.id == i.id) = some p)
    (hrem : ¬0 < (runDeduction (deductionOrder p.batches) i.quantity).remaining) :
    processCart ps (.prod i :: rest) =
      match processCart (lineUpdate ps p i.quantity) rest with
      | .error m => .error m
      | .ok (ps', its, us) =>
        .ok (ps',
          .prod { i with
            purchasePrice :=
              (runDeduction (deductionOrder p.batches) i.quantity).totalPurchaseValue /
                (i.quantity : ℚ) } :: its,
          (runDeduction (deductionOrder p.batches) i.quantity).stockUpdates ++ us) := by
  simp only [processCart, hfind, if_neg hrem, lineUpdate]

theorem processCart_cons_prod_insufficient (ps : List Product) (i : ProdItem)
    (rest : List CartItem) (p : Product)
    (hfind : ps.find? (fun r => r.id == i.id) = some p)
    (hrem : 0 < (runDeduction (deductionOrder p.batches) i.quantity).remaining) :
    processCart ps (.prod i :: rest) = .error (insufficientMsg i.name) := by
  simp only [processCart, hfind, if_pos hrem]

theorem processCart_cons_prod_notfound (ps : List Product) (i : ProdItem)
    (rest : List CartItem)
    (hfind : ps.find? (fun r => r.id == i.id) = none) :
    processCart ps (.prod i :: rest) = .error (notFoundMsg i.name) := by
  simp only [processCart, hfind]

theorem okTriple_inj {α β γ : Type} {a₁ a₂ : α} {b₁ b₂ : β} {c₁ c₂ : γ}
    (h : (Except.ok (a₁, b₁, c₁) : Except String (α × β × γ)) = .ok (a₂, b₂, c₂)) :
    a₁ = a₂ ∧ b₁ = b₂ ∧ c₁ = c₂ := by
  have h' := Except.ok.inj h
  exact ⟨congrArg (fun t => t.1) h', congrArg (fun t => t.2.1) h',
    congrArg (fun t => t.2.2) h'⟩

theorem processCart_updates_nonneg (cart : List CartItem) :
    ∀ ps qs its us, processCart ps cart = .ok (qs, its, us) → ∀ u ∈ us, 0 ≤ u.2 := by
  induction cart with
  | nil =>
    intro ps qs its us h
    simp only [processCart] at h
    obtain ⟨-, -, h3⟩ := okTriple_inj h
    rw [← h3]
    intro u hu
    exact absurd hu (List.not_mem_nil u)
  | cons it rest ih =>
    intro ps qs its us h
    cases it with
    | serv sv =>
      cases hrec : processCart ps rest with
      | error m =>
        simp only [processCart, hrec] at h
        exact Except.noConfusion h
      | ok x =>
        obtain ⟨ps', its', us'⟩ := x
        simp only [processCart, hrec] at h
        obtain ⟨-, -, h3⟩ := okTriple_inj h
        rw [← h3]
        exact ih ps ps' its' us' hrec
    | prod i =>
      cases hfind : ps.find? (fun r => r.id == i.id) with
      | none =>
        rw [processCart_cons_prod_notfound ps i rest hfind] at h
        exact Except.noConfusion h
      | some p =>
        by_cases hrem : 0 < (runDeduction (deductionOrder p.batches) i.quantity).remaining
        · rw [processCart_cons_prod_insufficient ps i rest p hfind hrem] at h
          exact Except.noConfusion h
        · rw [processCart_cons_prod_ok ps i rest p hfind hrem] at h
          cases hrec : processCart (lineUpdate ps p i.quantity) rest with
          | error m =>
            rw [hrec] at h
            exact Except.noConfusion h
          | ok x =>
            obtain ⟨ps', its', us'⟩ := x
            rw [hrec] at h
            obtain ⟨-, -, h3⟩ := okTriple_inj h
            rw [← h3]
            intro u hu
            rcases List.mem_append.1 hu with hu | hu
            · exact runDeduction_updates_nonneg _ _ u hu
            · exact ih _ ps' its' us' hrec u hu

theorem lineUpdate_nonneg (ps : List Product) (p : Product) (q : ℤ)
    (hnn : stocksNonneg ps) : stocksNonneg (lineUpdate ps p q) := by
  intro p' hp' b' hb'
  simp only [lineUpdate, List.mem_map] at hp'
  obtain ⟨p₀, hp₀, rfl⟩ := hp'
  by_cases hid : (p₀.id == p.id) = true
  · rw [if_pos hid] at hb'
    exact applyStockUpdates_nonneg _ _ (runDeduction_updates_nonneg _ _) (hnn p₀ hp₀) b' hb'
  · rw [if_neg hid] at hb'
    exact hnn p₀ hp₀ b' hb'

theorem processCart_nonneg (cart : List CartItem) :
    ∀ ps qs its us, processCart ps cart = .ok (qs, its, us) → stocksNonneg ps →
      stocksNonneg qs := by
  induction cart with
  | nil =>
    intro ps qs its us h hnn
    simp only [processCart] at h
    obtain ⟨h1, -, -⟩ := okTriple_inj h
    rw [← h1]
    exact hnn
  | cons it rest ih =>
    intro ps qs its us h hnn
    cases it with
    | serv sv =>
      cases hrec : processCart ps rest with
      | error m =>
        simp only [processCart, hrec] at h
        exact Except.noConfusion h
      | ok x =>
        obtain ⟨ps', its', us'⟩ := x
        simp only [processCart, hrec] at h
        obtain ⟨h1, -, -⟩ := okTriple_inj h
        rw [← h1]
        exact ih ps ps' its' us' hrec hnn
    | prod i =>
      cases hfind : ps.find? (fun r => r.id == i.id) with
      | none =>
        rw [processCart_cons_prod_notfound ps i rest hfind] at h
        exact Except.noConfusion h
      | some p =>
        by_cases hrem : 0 < (runDeduction (deductionOrder p.batches) i.quantity).remaining
        · rw [processCart_cons_prod_insufficient ps i rest p hfind hrem] at h
          exact Except.noConfusion h
        · rw [processCart_cons_prod_ok ps i rest p hfind hrem] at h
          cases hrec : processCart (lineUpdate ps p i.quantity) rest with
          | error m =>
            rw [hrec] at h
            exact Except.noConfusion h
          | ok x =>
            obtain ⟨ps', its', us'⟩ := x
            rw [hrec] at h
            obtain ⟨h1, -, -⟩ := okTriple_inj h
            rw [← h1]
            exact ih _ ps' its' us' hrec (lineUpdate_nonneg ps p i.quantity hnn)

/-! ## Lemmas: failing the whole sale on insufficient stock -/

theorem cartProdItems_cons_prod (i : ProdItem) (c : List CartItem) :
    cartProdItems (.prod i :: c) = i :: cartProdItems c := by
  simp [cartProdItems, List.filterMap_cons]

theorem cartProdItems_cons_serv (sv : ServItem) (c : List CartItem) :
    cartProdItems (.serv sv :: c) = cartProdItems c := by
  simp [cartProdItems, List.filterMap_cons]

theorem cartProdIds_cons_prod (i : ProdItem) (c : List CartItem) :
    cartProdIds (.prod i :: c) = i.id :: cartProdIds c := by
  simp [cartProdIds, List.filterMap_cons]

theorem cartProdIds_cons_serv (sv : ServItem) (c : List CartItem) :
    cartProdIds (.serv sv :: c) = cartProdIds c := by
  simp [cartProdIds, List.filterMap_cons]

theorem cartProdIds_eq_map (c : List CartItem) :
    cartProdIds c = (cartProdItems c).map (fun i => i.id) := by
  induction c with
  | nil => rfl
  | cons it rest ih =>
    cases it with
    | prod i => rw [cartProdIds_cons_prod, cartProdItems_cons_prod, List.map_cons, ih]
    | serv sv => rw [cartProdIds_cons_serv, cartProdItems_cons_serv, ih]

theorem lineUpdate_find?_ne (ps : List Product) (p : Product) (q : ℤ) (x : String)
    (p₀ : Product) (hfind : ps.find? (fun r => r.id == x) = some p₀)
    (hne : p₀.id ≠ p.id) :
    (lineUpdate ps p q).find? (fun r => r.id == x) = some p₀ := by
  unfold lineUpdate
  rw [List.find?_map]
  have hpred : ((fun r : Product => r.id == x) ∘ fun r =>
      if r.id == p.id then
        { r with
          batches :=
            applyStockUpdates (runDeduction (deductionOrder p.batches) q).stockUpdates
              r.batches }
      else r) = fun r : Product => r.id == x := by
    funext r
    by_cases h : (r.id == p.id) = true
    · simp only [Function.comp_apply, if_pos h]
    · simp only [Function.comp_apply, if_neg h]
  rw [hpred, hfind]
  have hbeq : (p₀.id == p.id) = false := by
    simp only [beq_eq_false_iff_ne, ne_eq]
    exact hne
  have hcond : ¬((p₀.id == p.id) = true) := by simp [hbeq]
  have hg : (if (p₀.id == p.id) = true then
      { p₀ with
        batches :=
          applyStockUpdates (runDeduction (deductionOrder p.batches) q).stockUpdates
            p₀.batches }
    else p₀) = p₀ := if_neg hcond
  exact congrArg some hg

theorem processCart_insufficient :
    ∀ (cart : List CartItem) (ps : List Product),
      stocksNonneg ps →
      (∀ i ∈ cartProdItems cart, ∃ p, ps.find? (fun r => r.id == i.id) = some p) →
      (cartProdIds cart).Nodup →
      (∃ i ∈ cartProdItems cart, ∃ p, ps.find? (fun r => r.id == i.id) = some p ∧
        totalStock p < i.quantity) →
      ∃ i ∈ cartProdItems cart,
        (∃ p, ps.find? (fun r => r.id == i.id) = some p ∧ totalStock p < i.quantity) ∧
        processCart ps cart = .error (insufficientMsg i.name) := by
  intro cart
  induction cart with
  | nil =>
    intro ps _ _ _ hviol
    obtain ⟨i, hi, -⟩ := hviol
    exact absurd hi (by simp [cartProdItems])
  | cons it rest ih =>
    intro ps hnn hex hnd hviol
    cases it with
    | serv sv =>
      rw [cartProdItems_cons_serv] at hex hviol
      rw [cartProdIds_cons_serv] at hnd
      obtain ⟨i, hi, hprop, herr⟩ := ih ps hnn hex hnd hviol
      refine ⟨i, ?_, hprop, ?_⟩
      · rw [cartProdItems_cons_serv]
        exact hi
      · simp only [processCart, herr]
    | prod i =>
      rw [cartProdItems_cons_prod] at hex hviol
      rw [cartProdIds_cons_prod] at hnd
      obtain ⟨p, hfind⟩ := hex i (List.mem_cons_self _ _)
      have hpmem := List.mem_of_find?_eq_some hfind
      have hpid : p.id = i.id := by
        have h1 := List.find?_some hfind
        simpa using h1
      have hpos : ∀ b ∈ p.batches, 0 ≤ b.stock := hnn p hpmem
      by_cases hlt : totalStock p < i.quantity
      · have hrem : 0 < (runDeduction (deductionOrder p.batches) i.quantity).remaining := by
          apply runDeduction_failure
          · rw [totalStock_eq_sumStocks] at hlt
            exact hlt
          · exact hpos
        refine ⟨i, ?_, ⟨p, hfind, hlt⟩,
          processCart_cons_prod_insufficient ps i rest p hfind hrem⟩
        rw [cartProdItems_cons_prod]
        exact List.mem_cons_self _ _
      · push_neg at hlt
        have hrem : ¬0 < (runDeduction (deductionOrder p.batches) i.quantity).remaining := by
          by_cases hq : 0 ≤ i.quantity
          · have := runDeduction_success p.batches i.quantity hq
              (by rw [← totalStock_eq_sumStocks]; exact hlt) hpos
            omega
          · rw [runDeduction_nonpos _ _ (by omega)]
            show ¬0 < i.quantity
            omega
        have hni : i.id ∉ cartProdIds rest := (List.nodup_cons.1 hnd).1
        have hndr : (cartProdIds rest).Nodup := (List.nodup_cons.1 hnd).2
        have hid_ne : ∀ j ∈ cartProdItems rest, j.id ≠ i.id := by
          intro j hj hjeq
          apply hni
          rw [cartProdIds_eq_map]
          exact hjeq ▸ List.mem_map_of_mem _ hj
        have hexr : ∀ j ∈ cartProdItems rest,
            ∃ p', (lineUpdate ps p i.quantity).find? (fun r => r.id == j.id) = some p' := by
          intro j hj
          obtain ⟨p₀, hfind₀⟩ := hex j (List.mem_cons_of_mem _ hj)
          have hp₀id : p₀.id = j.id := by
            have h1 := List.find?_some hfind₀
            simpa using h1
          refine ⟨p₀, lineUpdate_find?_ne ps p i.quantity j.id p₀ hfind₀ ?_⟩
          rw [hp₀id, hpid]
          exact hid_ne j hj
        have hviolr : ∃ j ∈ cartProdItems rest,
            ∃ p', (lineUpdate ps p i.quantity).find? (fun r => r.id == j.id) = some p' ∧
              totalStock p' < j.quantity := by
          obtain ⟨i₀, hi₀, p₀, hfind₀, hlt₀⟩ := hviol
          rcases List.mem_cons.1 hi₀ with rfl | hi₀r
          · rw [hfind] at hfind₀
            have : p = p₀ := Option.some.inj hfind₀
            rw [← this] at hlt₀
            omega
          · have hp₀id : p₀.id = i₀.id := by
              have h1 := List.find?_some hfind₀
              simpa using h1
            refine ⟨i₀, hi₀r, p₀, lineUpdate_find?_ne ps p i.quantity i₀.id p₀ hfind₀ ?_, hlt₀⟩
            rw [hp₀id, hpid]
            exact hid_ne i₀ hi₀r
        obtain ⟨j, hj, ⟨p', hfind', hlt'⟩, herr⟩ :=
          ih (lineUpdate ps p i.quantity) (lineUpdate_nonneg ps p i.quantity hnn)
            hexr hndr hviolr
        obtain ⟨p₀, hfind₀⟩ := hex j (List.mem_cons_of_mem _ hj)
        have hp₀id : p₀.id = j.id := by
          have h1 := List.find?_some hfind₀
          simpa using h1
        have hsame : (lineUpdate ps p i.quantity).find? (fun r => r.id == j.id) = some p₀ := by
          refine lineUpdate_find?_ne ps p i.quantity j.id p₀ hfind₀ ?_
          rw [hp₀id, hpid]
          exact hid_ne j hj
        have hp'eq : p' = p₀ := Option.some.inj (hfind'.symm.trans hsame)
        refine ⟨j, ?_, ⟨p₀, hfind₀, by rw [← hp'eq]; exact hlt'⟩, ?_⟩
        · rw [cartProdItems_cons_prod]
          exact List.mem_cons_of_mem _ hj
        · rw [processCart_cons_prod_ok ps i rest p hfind hrem]
          simp only [herr]

/-! ## Lemmas: stock restores and deductions of the edit / return write sets -/

theorem applyRestore_batch_mem (ps : List Product) (r : String × ℤ) (hr : 0 ≤ r.2) :
    ∀ p' ∈ applyRestore ps r, ∀ b' ∈ p'.batches,
      ∃ p ∈ ps, ∃ b ∈ p.batches, b.id = b'.id ∧ b.stock ≤ b'.stock := by
  intro p' hp' b' hb'
  simp only [applyRestore, List.mem_map] at hp'
  obtain ⟨p, hp, rfl⟩ := hp'
  by_cases hid : (p.id == r.1) = true
  · rw [if_pos hid] at hb'
    simp only at hb'
    cases hbs : p.batches with
    | nil =>
      rw [hbs] at hb'
      exact absurd hb' (List.not_mem_nil b')
    | cons b bs =>
      rw [hbs] at hb'
      rcases List.mem_cons.1 hb' with rfl | hmem
      · exact ⟨p, hp, b, by rw [hbs]; exact List.mem_cons_self _ _, rfl, by simp; omega⟩
      · exact ⟨p, hp, b', by rw [hbs]; exact List.mem_cons_of_mem _ hmem, rfl, le_refl _⟩
  · rw [if_neg hid] at hb'
    exact ⟨p, hp, b', hb', rfl, le_refl _⟩

theorem restores_fold_mem (rs : List (String × ℤ)) :
    ∀ ps, (∀ r ∈ rs, 0 ≤ r.2) →
      ∀ p' ∈ rs.foldl applyRestore ps, ∀ b' ∈ p'.batches,
        ∃ p ∈ ps, ∃ b ∈ p.batches, b.id = b'.id ∧ b.stock ≤ b'.stock := by
  induction rs with
  | nil =>
    intro ps _ p' hp' b' hb'
    exact ⟨p', hp', b', hb', rfl, le_refl _⟩
  | cons r rest ih =>
    intro ps hrs p' hp' b' hb'
    have h1 := ih (applyRestore ps r) (fun x hx => hrs x (List.mem_cons_of_mem _ hx))
    obtain ⟨p₁, hp₁, b₁, hb₁, hid₁, hle₁⟩ := h1 p' hp' b' hb'
    obtain ⟨p₀, hp₀, b₀, hb₀, hid₀, hle₀⟩ :=
      applyRestore_batch_mem ps r (hrs r (List.mem_cons_self _ _)) p₁ hp₁ b₁ hb₁
    exact ⟨p₀, hp₀, b₀, hb₀, hid₀.trans hid₁, hle₀.trans hle₁⟩

theorem restores_fold_nonneg (rs : List (String × ℤ)) (ps : List Product)
    (hrs : ∀ r ∈ rs, 0 ≤ r.2) (hnn : stocksNonneg ps) :
    stocksNonneg (rs.foldl applyRestore ps) := by
  intro p' hp' b' hb'
  obtain ⟨p, hp, b, hb, -, hle⟩ := restores_fold_mem rs ps hrs p' hp' b' hb'
  exact le_trans (hnn p hp b hb) hle

theorem boundIn_after_restores (rs : List (String × ℤ)) (ps : List Product)
    (hrs : ∀ r ∈ rs, 0 ≤ r.2) (bid : String) (q : ℤ) (hb : boundIn ps bid q) :
    boundIn (rs.foldl applyRestore ps) bid q := by
  intro p' hp' b' hb' hid
  obtain ⟨p, hp, b, hbmem, hbid, hle⟩ := restores_fold_mem rs ps hrs p' hp' b' hb'
  exact le_trans (hb p hp b hbmem (hbid.trans hid)) hle

theorem applyDeduction_batch_mem (ps : List Product) (d : String × ℤ) :
    ∀ p' ∈ applyDeduction ps d, ∀ b' ∈ p'.batches,
      ∃ p ∈ ps, ∃ b ∈ p.batches, b'.id = b.id ∧
        (b' = b ∨ (b.id = d.1 ∧ b'.stock = b.stock - d.2)) := by
  intro p' hp' b' hb'
  simp only [applyDeduction, List.mem_map] at hp'
  obtain ⟨p, hp, rfl⟩ := hp'
  simp only [List.mem_map] at hb'
  obtain ⟨b, hb, rfl⟩ := hb'
  by_cases hid : (b.id == d.1) = true
  · rw [if_pos hid]
    exact ⟨p, hp, b, hb, rfl, Or.inr ⟨by simpa using hid, rfl⟩⟩
  · rw [if_neg hid]
    exact ⟨p, hp, b, hb, rfl, Or.inl rfl⟩

theorem applyDeduction_nonneg (ps : List Product) (d : String × ℤ)
    (hnn : stocksNonneg ps) (hbd : boundIn ps d.1 d.2) :
    stocksNonneg (applyDeduction ps d) := by
  intro p' hp' b' hb'
  obtain ⟨p, hp, b, hb, hid, h | ⟨hbid, hst⟩⟩ := applyDeduction_batch_mem ps d p' hp' b' hb'
  · exact h ▸ hnn p hp b hb
  · rw [hst]
    have := hbd p hp b hb hbid
    omega

theorem applyDeduction_boundIn_other (ps : List Product) (d : String × ℤ)
    (bid : String) (q : ℤ) (hne : bid ≠ d.1) (hb : boundIn ps bid q) :
    boundIn (applyDeduction ps d) bid q := by
  intro p' hp' b' hb' hid
  obtain ⟨p, hp, b, hbmem, hbid, h | ⟨hd, hst⟩⟩ := applyDeduction_batch_mem ps d p' hp' b' hb'
  · rw [h]
    exact hb p hp b hbmem (hbid.symm.trans hid)
  · exact absurd ((hid.symm.trans hbid).trans hd) hne

theorem deductions_fold_nonneg (ds : List (String × ℤ)) :
    ∀ ps, stocksNonneg ps → (ds.map Prod.fst).Nodup →
      (∀ d ∈ ds, boundIn ps d.1 d.2) →
      stocksNonneg (ds.foldl applyDeduction ps) := by
  induction ds with
  | nil => intro ps hnn _ _; exact hnn
  | cons d rest ih =>
    intro ps hnn hnd hbd
    simp only [List.map_cons, List.nodup_cons] at hnd
    refine ih (applyDeduction ps d)
      (applyDeduction_nonneg ps d hnn (hbd d (List.mem_cons_self _ _))) hnd.2 ?_
    intro d' hd'
    refine applyDeduction_boundIn_other ps d d'.1 d'.2 ?_
      (hbd d' (List.mem_cons_of_mem _ hd'))
    intro heq
    exact hnd.1 (heq ▸ List.mem_map_of_mem Prod.fst hd')

/-! ## Lemmas: distinctness of the recorded stock updates -/

theorem nodup_flatMap_eq {α β : Type} [DecidableEq β] (l : List α) (f : α → List β)
    (hnd : (l.flatMap f).Nodup) :
    ∀ a ∈ l, ∀ b ∈ l, ∀ x, x ∈ f a → x ∈ f b → a = b := by
  intro a ha b hb x hxa hxb
  by_cases hab : a = b
  · exact hab
  · obtain ⟨-, hpair⟩ := List.nodup_flatMap.1 hnd
    have hsymm : Symmetric fun a b : α => List.Disjoint (f a) (f b) :=
      fun u v h y hy hy' => h hy' hy
    exact absurd hxb (hpair.forall hsymm ha hb hab hxa)

theorem batchIds_nodup_of_mem (ps : List Product) (hB : batchIdsNodup ps)
    (p : Product) (hp : p ∈ ps) : (p.batches.map (·.id)).Nodup :=
  (List.nodup_flatMap.1 hB).1 p hp

theorem deductionOrder_subset (bs : List ProductBatch) :
    ∀ b ∈ deductionOrder bs, b ∈ bs := by
  intro b hb
  rcases List.mem_append.1 hb with h | h
  · exact List.mem_of_mem_filter ((sortByKey_perm expiryKey _).mem_iff.1 h)
  · exact List.mem_of_mem_filter
      ((sortByKey_perm (fun b : ProductBatch => b.purchaseDate) _).mem_iff.1 h)

theorem deductionOrder_ids_nodup (bs : List ProductBatch)
    (hnd : (bs.map (·.id)).Nodup) :
    ((deductionOrder bs).map (·.id)).Nodup := by
  have hsub1 : List.Sublist
      ((bs.filter fun b => b.expiryDate.isSome && decide (0 < b.stock)).map (·.id))
      (bs.map (·.id)) := (List.filter_sublist bs).map _
  have hsub2 : List.Sublist
      ((bs.filter fun b => b.expiryDate.isNone && decide (0 < b.stock)).map (·.id))
      (bs.map (·.id)) := (List.filter_sublist bs).map _
  have hperm1 : List.Perm ((expiryPart bs).map (·.id))
      ((bs.filter fun b => b.expiryDate.isSome && decide (0 < b.stock)).map (·.id)) :=
    (sortByKey_perm expiryKey _).map _
  have hperm2 : List.Perm ((noExpiryPart bs).map (·.id))
      ((bs.filter fun b => b.expiryDate.isNone && decide (0 < b.stock)).map (·.id)) :=
    (sortByKey_perm (fun b : ProductBatch => b.purchaseDate) _).map _
  have hnd1 : ((expiryPart bs).map (·.id)).Nodup :=
    hperm1.nodup_iff.2 (hnd.sublist hsub1)
  have hnd2 : ((noExpiryPart bs).map (·.id)).Nodup :=
    hperm2.nodup_iff.2 (hnd.sublist hsub2)
  have hdisj : List.Disjoint ((expiryPart bs).map (·.id)) ((noExpiryPart bs).map (·.id)) := by
    intro x hx1 hx2
    simp only [List.mem_map] at hx1 hx2
    obtain ⟨b₁, hb₁, hid₁⟩ := hx1
    obtain ⟨b₂, hb₂, hid₂⟩ := hx2
    have hb₁f := (sortByKey_perm expiryKey _).mem_iff.1 hb₁
    have hb₂f := (sortByKey_perm (fun b : ProductBatch => b.purchaseDate) _).mem_iff.1 hb₂
    have hb₁m : b₁ ∈ bs := List.mem_of_mem_filter hb₁f
    have hb₂m : b₂ ∈ bs := List.mem_of_mem_filter hb₂f
    have heq : b₁ = b₂ :=
      List.inj_on_of_nodup_map hnd hb₁m hb₂m (hid₁.trans hid₂.symm)
    have h₁ := List.of_mem_filter hb₁f
    have h₂ := List.of_mem_filter hb₂f
    simp only [Bool.and_eq_true] at h₁ h₂
    rw [heq] at h₁
    have h₂n : b₂.expiryDate = none := Option.isNone_iff_eq_none.1 h₂.1
    rw [h₂n] at h₁
    exact absurd h₁.1 (by simp)
  rw [deductionOrder, List.map_append]
  exact hnd1.append hnd2 hdisj

theorem runDeduction_ids_sublist (l : List ProductBatch) (q : ℤ) :
    List.Sublist ((runDeduction l q).stockUpdates.map Prod.fst) (l.map (·.id)) := by
  induction l generalizing q with
  | nil => simp [runDeduction]
  | cons b bs ih =>
    by_cases h : q ≤ 0
    · simp [runDeduction, if_pos h]
    · simp only [runDeduction, if_neg h, List.map_cons]
      exact (ih (q - min q b.stock)).cons₂ b.id

theorem applyStockUpdates_ids (us : List (String × ℤ)) (bs : List ProductBatch) :
    (applyStockUpdates us bs).map (·.id) = bs.map (·.id) := by
  unfold applyStockUpdates
  rw [List.map_map]
  apply List.map_congr_left
  intro b _
  cases hf : us.find? (fun u => u.1 == b.id) with
  | none => simp [hf]
  | some u => simp [hf]

theorem lineUpdate_mem_ids (ps : List Product) (p : Product) (q : ℤ) :
    ∀ p' ∈ lineUpdate ps p q, ∃ p₀ ∈ ps, p'.id = p₀.id ∧
      p'.batches.map (·.id) = p₀.batches.map (·.id) := by
  intro p' hp'
  simp only [lineUpdate, List.mem_map] at hp'
  obtain ⟨p₀, hp₀, rfl⟩ := hp'
  by_cases hid : (p₀.id == p.id) = true
  · rw [if_pos hid]
    exact ⟨p₀, hp₀, rfl, applyStockUpdates_ids _ _⟩
  · rw [if_neg hid]
    exact ⟨p₀, hp₀, rfl, rfl⟩

theorem lineUpdate_flatMap_ids (ps : List Product) (p : Product) (q : ℤ) :
    (lineUpdate ps p q).flatMap (fun r => r.batches.map (·.id)) =
      ps.flatMap fun r => r.batches.map (·.id) := by
  unfold lineUpdate
  induction ps with
  | nil => rfl
  | cons r rest ih =>
    simp only [List.map_cons, List.flatMap_cons, ih]
    congr 1
    by_cases hid : (r.id == p.id) = true
    · rw [if_pos hid]
      exact applyStockUpdates_ids _ _
    · rw [if_neg hid]

theorem lineUpdate_batchIdsNodup (ps : List Product) (p : Product) (q : ℤ)
    (hB : batchIdsNodup ps) : batchIdsNodup (lineUpdate ps p q) := by
  unfold batchIdsNodup
  rw [lineUpdate_flatMap_ids]
  exact hB

theorem processCart_updates_nodup :
    ∀ (cart : List CartItem) (ps qs : List Product) (its : List CartItem)
      (us : List (String × ℤ)),
      processCart ps cart = .ok (qs, its, us) →
      batchIdsNodup ps → (cartProdIds cart).Nodup →
      (us.map Prod.fst).Nodup ∧
        ∀ x ∈ us.map Prod.fst, ∃ i ∈ cartProdIds cart, ∃ p ∈ ps,
          p.id = i ∧ x ∈ p.batches.map (·.id) := by
  intro cart
  induction cart with
  | nil =>
    intro ps qs its us h hB hC
    simp only [processCart] at h
    obtain ⟨-, -, h3⟩ := okTriple_inj h
    rw [← h3]
    exact ⟨List.nodup_nil, by simp⟩
  | cons it rest ih =>
    intro ps qs its us h hB hC
    cases it with
    | serv sv =>
      cases hrec : processCart ps rest with
      | error m =>
        simp only [processCart, hrec] at h
        exact Except.noConfusion h
      | ok x =>
        obtain ⟨ps', its', us'⟩ := x
        simp only [processCart, hrec] at h
        obtain ⟨-, -, h3⟩ := okTriple_inj h
        rw [← h3]
        rw [cartProdIds_cons_serv] at hC
        obtain ⟨hnd, hprov⟩ := ih ps ps' its' us' hrec hB hC
        refine ⟨hnd, ?_⟩
        intro x hx
        obtain ⟨i, hi, p, hp, hpi, hxp⟩ := hprov x hx
        rw [cartProdIds_cons_serv]
        exact ⟨i, hi, p, hp, hpi, hxp⟩
    | prod i =>
      cases hfind : ps.find? (fun r => r.id == i.id) with
      | none =>
        rw [processCart_cons_prod_notfound ps i rest hfind] at h
        exact Except.noConfusion h
      | some p =>
        have hpmem := List.mem_of_find?_eq_some hfind
        have hpid : p.id = i.id := by
          have h1 := List.find?_some hfind
          simpa using h1
        by_cases hrem : 0 < (runDeduction (deductionOrder p.batches) i.quantity).remaining
        · rw [processCart_cons_prod_insufficient ps i rest p hfind hrem] at h
          exact Except.noConfusion h
        · rw [processCart_cons_prod_ok ps i rest p hfind hrem] at h
          cases hrec : processCart (lineUpdate ps p i.quantity) rest with
          | error m =>
            rw [hrec] at h
            exact Except.noConfusion h
          | ok x =>
            obtain ⟨ps', its', us'⟩ := x
            rw [hrec] at h
            obtain ⟨-, -, h3⟩ := okTriple_inj h
            rw [← h3]
            rw [cartProdIds_cons_prod] at hC
            have hCrest := (List.nodup_cons.1 hC).2
            have hCni := (List.nodup_cons.1 hC).1
            obtain ⟨hnd', hprov'⟩ := ih (lineUpdate ps p i.quantity) ps' its' us' hrec
              (lineUpdate_batchIdsNodup ps p i.quantity hB) hCrest
            have hporig : (p.batches.map (·.id)).Nodup :=
              batchIds_nodup_of_mem ps hB p hpmem
            have hheadsub := runDeduction_ids_sublist (deductionOrder p.batches) i.quantity
            have hheadnd : ((runDeduction (deductionOrder p.batches) i.quantity).stockUpdates.map
                Prod.fst).Nodup :=
              (deductionOrder_ids_nodup p.batches hporig).sublist hheadsub
            have hheadmem : ∀ x ∈ (runDeduction (deductionOrder p.batches)
                i.quantity).stockUpdates.map Prod.fst, x ∈ p.batches.map (·.id) := by
              intro x hx
              have hx' := hheadsub.subset hx
              simp only [List.mem_map] at hx' ⊢
              obtain ⟨b, hb, rfl⟩ := hx'
              exact ⟨b, deductionOrder_subset p.batches b hb, rfl⟩
            have hprovps : ∀ x ∈ us'.map Prod.fst, ∃ i' ∈ cartProdIds rest, ∃ p₀ ∈ ps,
                p₀.id = i' ∧ x ∈ p₀.batches.map (·.id) := by
              intro x hx
              obtain ⟨i', hi', p', hp', hpi', hxp'⟩ := hprov' x hx
              obtain ⟨p₀, hp₀, hid₀, hbid₀⟩ := lineUpdate_mem_ids ps p i.quantity p' hp'
              exact ⟨i', hi', p₀, hp₀, hid₀ ▸ hpi', hbid₀ ▸ hxp'⟩
            have hdisj : List.Disjoint
                ((runDeduction (deductionOrder p.batches) i.quantity).stockUpdates.map
                  Prod.fst) (us'.map Prod.fst) := by
              intro x hx1 hx2
              have hx1p : x ∈ p.batches.map (·.id) := hheadmem x hx1
              obtain ⟨i', hi', p₀, hp₀, hpi₀, hxp₀⟩ := hprovps x hx2
              have hne : p₀.id ≠ p.id := by
                rw [hpi₀, hpid]
                intro hcontra
                exact hCni (hcontra ▸ hi')
              have hB' : (ps.flatMap fun r => r.batches.map (·.id)).Nodup := hB
              have heq : p = p₀ :=
                nodup_flatMap_eq ps (fun r => r.batches.map (·.id)) hB' p hpmem p₀ hp₀ x
                  hx1p hxp₀
              exact hne (heq ▸ rfl)
            constructor
            · rw [List.map_append]
              exact hheadnd.append hnd' hdisj
            · intro x hx
              rw [List.map_append] at hx
              rw [cartProdIds_cons_prod]
              rcases List.mem_append.1 hx with hx | hx
              · exact ⟨i.id, List.mem_cons_self _ _, p, hpmem, hpid, hheadmem x hx⟩
              · obtain ⟨i', hi', p₀, hp₀, hpi₀, hxp₀⟩ := hprovps x hx
                exact ⟨i', List.mem_cons_of_mem _ hi', p₀, hp₀, hpi₀, hxp₀⟩

theorem find?_batch_unique (bs : List ProductBatch) (b : ProductBatch)
    (hnd : (bs.map (·.id)).Nodup) (hb : b ∈ bs) :
    bs.find? (fun x => x.id == b.id) = some b := by
  induction bs with
  | nil => exact absurd hb (List.not_mem_nil b)
  | cons c rest ih =>
    rcases List.mem_cons.1 hb with rfl | hbr
    · rw [List.find?_cons_of_pos]
      simp
    · by_cases hc : (c.id == b.id) = true
      · exfalso
        have hcb : c.id = b.id := by simpa using hc
        simp only [List.map_cons, List.nodup_cons] at hnd
        exact hnd.1 (hcb ▸ List.mem_map_of_mem _ hbr)
      · rw [List.find?_cons_of_neg _ (by simpa using hc)]
        exact ih (by simp only [List.map_cons, List.nodup_cons] at hnd; exact hnd.2) hbr

theorem lookupBatchStock_eq (ps : List Product) (hB : batchIdsNodup ps) :
    ∀ p ∈ ps, ∀ b ∈ p.batches, lookupBatchStock ps b.id = some b.stock := by
  induction ps with
  | nil => intro p hp; exact absurd hp (List.not_mem_nil p)
  | cons p₁ rest ih =>
    intro p hp b hb
    have hBr : batchIdsNodup rest := by
      unfold batchIdsNodup at hB ⊢
      rw [List.flatMap_cons] at hB
      exact (List.nodup_append.1 hB).2.1
    have hdisj : List.Disjoint (p₁.batches.map (·.id))
        (rest.flatMap fun r => r.batches.map (·.id)) := by
      unfold batchIdsNodup at hB
      rw [List.flatMap_cons] at hB
      exact (List.nodup_append.1 hB).2.2
    rcases List.mem_cons.1 hp with rfl | hpr
    · have hany : p.batches.any (fun x => x.id == b.id) = true := by
        rw [List.any_eq_true]
        exact ⟨b, hb, by simp⟩
      unfold lookupBatchStock
      simp only [@List.find?_cons_of_pos Product
        (fun r : Product => r.batches.any fun x => x.id == b.id) p rest hany]
      rw [find?_batch_unique p.batches b
        (batchIds_nodup_of_mem (p :: rest) hB p (List.mem_cons_self _ _)) hb]
      rfl
    · have hnotin : b.id ∉ p₁.batches.map (·.id) := by
        intro hmem
        refine hdisj hmem ?_
        rw [List.mem_flatMap]
        exact ⟨p, hpr, List.mem_map_of_mem _ hb⟩
      have hany : p₁.batches.any (fun x => x.id == b.id) = false := by
        rw [Bool.eq_false_iff]
        intro hany
        rw [List.any_eq_true] at hany
        obtain ⟨c, hc, hcb⟩ := hany
        have : c.id = b.id := by simpa using hcb
        exact hnotin (this ▸ List.mem_map_of_mem _ hc)
      have hpa : ¬((fun r : Product => r.batches.any fun x => x.id == b.id) p₁ = true) := by
        show ¬(p₁.batches.any fun x => x.id == b.id) = true
        simp only [hany]
        exact Bool.false_ne_true
      unfold lookupBatchStock
      simp only [@List.find?_cons_of_neg Product
        (fun r : Product => r.batches.any fun x => x.id == b.id) p₁ rest hpa]
      have hih := ih hBr p hpr b hb
      unfold lookupBatchStock at hih
      exact hih

/-! ## Lemmas: `completeSale` branch equations -/

theorem completeSale_offline (s : AppState) (cashier : String) (cid : Option String)
    (now : ℤ) (txId : String) (apiOk : Bool) :
    completeSale s false cashier cid now txId apiOk = ⟨false, offlineMsg, none, s, [], []⟩ :=
  rfl

theorem completeSale_empty (s : AppState) (cashier : String) (cid : Option String)
    (now : ℤ) (txId : String) (apiOk : Bool) (h : s.cart.isEmpty = true) :
    completeSale s true cashier cid now txId apiOk = ⟨false, emptyCartMsg, none, s, [], []⟩ := by
  simp [completeSale, h]

theorem completeSale_procError (s : AppState) (cashier : String) (cid : Option String)
    (now : ℤ) (txId : String) (apiOk : Bool) (hne : s.cart.isEmpty = false) (m : String)
    (he : processCart s.products s.cart = .error m) :
    completeSale s true cashier cid now txId apiOk = ⟨false, m, none, s, [], []⟩ := by
  simp [completeSale, hne, he]

theorem apiUpdateSale_products (s : AppState) (iid : String) (inv : SaleInvoice)
    (rs ds : List (String × ℤ)) (cu : Option CustUpdateParams) :
    (apiUpdateSale s iid inv rs ds cu).products =
      ds.foldl applyDeduction (rs.foldl applyRestore s.products) := by
  unfold apiUpdateSale
  cases cu with
  | none => rfl
  | some c =>
    rcases hf : s.customers.find? (fun x => x.id == c.id) with _ | c0 <;> simp only [hf]

theorem completeSale_create_fail (s : AppState) (cashier : String) (cid : Option String)
    (now : ℤ) (txId : String)
    (heid : s.editingSaleInvoiceId = none) (hne : s.cart.isEmpty = false)
    (qs : List Product) (its : List CartItem) (us : List (String × ℤ))
    (hok : processCart s.products s.cart = .ok (qs, its, us)) :
    (completeSale s true cashier cid now txId false).state = s ∧
    (completeSale s true cashier cid now txId false).toasts =
      ["❌ خطا در ثبت فاکتور در سرور."] ∧
    (completeSale s true cashier cid now txId false).calls ≠ [] := by
  refine ⟨?_, ?_, ?_⟩ <;> simp [completeSale, hne, hok, heid]

theorem completeSale_create_ok_products (s : AppState) (cashier : String)
    (cid : Option String) (now : ℤ) (txId : String)
    (heid : s.editingSaleInvoiceId = none) (hne : s.cart.isEmpty = false)
    (qs : List Product) (its : List CartItem) (us : List (String × ℤ))
    (hok : processCart s.products s.cart = .ok (qs, its, us)) :
    (completeSale s true cashier cid now txId true).state.products = qs := by
  simp [completeSale, hne, hok, heid]

theorem completeSale_edit_fail_state (s : AppState) (cashier : String)
    (cid : Option String) (now : ℤ) (txId : String) (eid : String)
    (heid : s.editingSaleInvoiceId = some eid) (hne : s.cart.isEmpty = false)
    (qs : List Product) (its : List CartItem) (us : List (String × ℤ))
    (hok : processCart s.products s.cart = .ok (qs, its, us)) :
    (completeSale s true cashier cid now txId false).state =
      { s with cart := [], editingSaleInvoiceId := none } ∧
    (completeSale s true cashier cid now txId false).toasts = [] ∧
    (completeSale s true cashier cid now txId false).calls ≠ [] := by
  refine ⟨?_, ?_, ?_⟩ <;> simp [completeSale, hne, hok, heid]

theorem completeSale_edit_ok_products (s : AppState) (cashier : String)
    (cid : Option String) (now : ℤ) (txId : String) (eid : String)
    (heid : s.editingSaleInvoiceId = some eid) (hne : s.cart.isEmpty = false)
    (qs : List Product) (its : List CartItem) (us : List (String × ℤ))
    (hok : processCart s.products s.cart = .ok (qs, its, us)) :
    (completeSale s true cashier cid now txId true).state.products =
      (us.map fun u =>
        (u.1,
          match lookupBatchStock s.products u.1 with
          | some st => st - u.2
          | none => 0)).foldl applyDeduction
        ((invoiceRestores
          ((s.saleInvoices.find? (fun i => i.id == eid)).getD defaultInvoice)).foldl
          applyRestore s.products) := by
  simp [completeSale, hne, hok, heid, apiUpdateSale_products]

/-! ## Lemmas: the invoice totals -/

theorem foldl_add_eq_sum {α : Type} (f : α → ℚ) (c : List α) :
    ∀ a, c.foldl (fun tot it => f it + tot) a = (c.map f).sum + a := by
  induction c with
  | nil => intro a; simp
  | cons x rest ih =>
    intro a
    simp only [List.foldl_cons, List.map_cons, List.sum_cons, ih]
    ring

theorem cartSubtotal_eq_sum (c : List CartItem) :
    cartSubtotal c = (c.map fun it => getPriceOriginal it * (itemQty it : ℚ)).sum := by
  unfold cartSubtotal
  rw [foldl_add_eq_sum]
  ring

theorem cartTotal_eq_sum (c : List CartItem) :
    cartTotal c = (c.map fun it => getPriceFinal it * (itemQty it : ℚ)).sum := by
  unfold cartTotal
  rw [foldl_add_eq_sum]
  ring

theorem processCart_price_maps (cart : List CartItem) :
    ∀ ps qs its us, processCart ps cart = .ok (qs, its, us) →
      (its.map fun it => getPriceOriginal it * (itemQty it : ℚ)) =
        (cart.map fun it => getPriceOriginal it * (itemQty it : ℚ)) ∧
      (its.map fun it => getPriceFinal it * (itemQty it : ℚ)) =
        (cart.map fun it => getPriceFinal it * (itemQty it : ℚ)) := by
  induction cart with
  | nil =>
    intro ps qs its us h
    simp only [processCart] at h
    obtain ⟨-, h2, -⟩ := okTriple_inj h
    rw [← h2]
    exact ⟨rfl, rfl⟩
  | cons it rest ih =>
    intro ps qs its us h
    cases it with
    | serv sv =>
      cases hrec : processCart ps rest with
      | error m =>
        simp only [processCart, hrec] at h
        exact Except.noConfusion h
      | ok x =>
        obtain ⟨ps', its', us'⟩ := x
        simp only [processCart, hrec] at h
        obtain ⟨-, h2, -⟩ := okTriple_inj h
        rw [← h2]
        obtain ⟨ha, hb⟩ := ih ps ps' its' us' hrec
        exact ⟨by rw [List.map_cons, List.map_cons, ha],
          by rw [List.map_cons, List.map_cons, hb]⟩
    | prod i =>
      cases hfind : ps.find? (fun r => r.id == i.id) with
      | none =>
        rw [processCart_cons_prod_notfound ps i rest hfind] at h
        exact Except.noConfusion h
      | some p =>
        by_cases hrem : 0 < (runDeduction (deductionOrder p.batches) i.quantity).remaining
        · rw [processCart_cons_prod_insufficient ps i rest p hfind hrem] at h
          exact Except.noConfusion h
        · rw [processCart_cons_prod_ok ps i rest p hfind hrem] at h
          cases hrec : processCart (lineUpdate ps p i.quantity) rest with
          | error m =>
            rw [hrec] at h
            exact Except.noConfusion h
          | ok x =>
            obtain ⟨ps', its', us'⟩ := x
            rw [hrec] at h
            obtain ⟨-, h2, -⟩ := okTriple_inj h
            rw [← h2]
            obtain ⟨ha, hb⟩ := ih _ ps' its' us' hrec
            constructor
            · rw [List.map_cons, List.map_cons, ha]
              rfl
            · rw [List.map_cons, List.map_cons, hb]
              rfl

/-! ## Lemmas: sale return, purchase posting, purchase return branch equations -/

theorem apiCreateSaleReturn_products (s : AppState) (retInv : SaleInvoice)
    (restores : List (String × ℤ)) (refund : Option (String × ℚ)) (now : ℤ)
    (txId : String) :
    (apiCreateSaleReturn s retInv restores refund now txId).products =
      restores.foldl applyRestore s.products := by
  unfold apiCreateSaleReturn
  cases refund with
  | none => rfl
  | some x =>
    obtain ⟨cid, amt⟩ := x
    rcases hf : s.customers.find? (fun c => c.id == cid) with _ | c0 <;> simp only [hf]

theorem apiCreateSaleReturn_invoices (s : AppState) (retInv : SaleInvoice)
    (restores : List (String × ℤ)) (refund : Option (String × ℚ)) (now : ℤ)
    (txId : String) :
    (apiCreateSaleReturn s retInv restores refund now txId).saleInvoices =
      retInv :: s.saleInvoices := by
  unfold apiCreateSaleReturn
  cases refund with
  | none => rfl
  | some x =>
    obtain ⟨cid, amt⟩ := x
    rcases hf : s.customers.find? (fun c => c.id == cid) with _ | c0 <;> simp only [hf]

theorem addSaleReturn_ok (s : AppState) (oid : String) (items : List ReturnLine)
    (cashier : String) (now : ℤ) (txId : String) (orig : SaleInvoice)
    (hfind : s.saleInvoices.find? (fun i => i.id == oid) = some orig) :
    addSaleReturn s true oid items cashier now txId true =
      ⟨true, "در حال ثبت مرجوعی...", none,
        apiCreateSaleReturn s
          { id := generateNextId "R" (s.saleInvoices.map (·.id))
            type := "return"
            originalInvoiceId := some oid
            items := resolveReturnItems orig items
            subtotal := (resolveReturnItems orig items).foldl
              (fun t it => t + getPriceFinal it * (itemQty it : ℚ)) 0
            totalAmount := (resolveReturnItems orig items).foldl
              (fun t it => t + getPriceFinal it * (itemQty it : ℚ)) 0
            totalDiscount := 0
            timestamp := now
            cashier := cashier
            customerId := orig.customerId }
          ((resolveReturnItems orig items).filterMap fun it =>
            match it with
            | .prod i => some (i.id, i.quantity)
            | .serv _ => none)
          (orig.customerId.map fun cid =>
            (cid, (resolveReturnItems orig items).foldl
              (fun t it => t + getPriceFinal it * (itemQty it : ℚ)) 0))
          now txId,
        [ApiCall.createSaleReturn
          { id := generateNextId "R" (s.saleInvoices.map (·.id))
            type := "return"
            originalInvoiceId := some oid
            items := resolveReturnItems orig items
            subtotal := (resolveReturnItems orig items).foldl
              (fun t it => t + getPriceFinal it * (itemQty it : ℚ)) 0
            totalAmount := (resolveReturnItems orig items).foldl
              (fun t it => t + getPriceFinal it * (itemQty it : ℚ)) 0
            totalDiscount := 0
            timestamp := now
            cashier := cashier
            customerId := orig.customerId }
          ((resolveReturnItems orig items).filterMap fun it =>
            match it with
            | .prod i => some (i.id, i.quantity)
            | .serv _ => none)
          (orig.customerId.map fun cid =>
            (cid, (resolveReturnItems orig items).foldl
              (fun t it => t + getPriceFinal it * (itemQty it : ℚ)) 0))],
        ["✅ مرجوعی با موفقیت ثبت شد."]⟩ := by
  simp only [addSaleReturn, Bool.not_true, Bool.false_eq_true, if_false, hfind,
    if_true]

theorem addSaleReturn_fail_state (s : AppState) (oid : String)
    (items : List ReturnLine) (cashier : String) (now : ℤ) (txId : String)
    (orig : SaleInvoice)
    (hfind : s.saleInvoices.find? (fun i => i.id == oid) = some orig) :
    (addSaleReturn s true oid items cashier now txId false).state = s ∧
    (addSaleReturn s true oid items cashier now txId false).toasts =
      ["❌ خطا در ثبت مرجوعی."] ∧
    (addSaleReturn s true oid items cashier now txId false).calls ≠ [] := by
  refine ⟨?_, ?_, ?_⟩ <;> simp [addSaleReturn, hfind]

theorem addSaleReturn_offline_or_notfound (s : AppState) (oid : String)
    (items : List ReturnLine) (cashier : String) (now : ℤ) (txId : String)
    (apiOk : Bool) :
    (addSaleReturn s false oid items cashier now txId apiOk).state = s ∧
    ((s.saleInvoices.find? (fun i => i.id == oid) = none) →
      (addSaleReturn s true oid items cashier now txId apiOk).state = s) := by
  constructor
  · rfl
  · intro hf
    simp [addSaleReturn, hf]

theorem resolveReturn_restores_nonneg (orig : SaleInvoice) (items : List ReturnLine)
    (h : ∀ r ∈ items, 0 ≤ r.quantity) :
    ∀ r ∈ (resolveReturnItems orig items).filterMap fun it =>
        match it with
        | .prod i => some (i.id, i.quantity)
        | .serv _ => none,
      0 ≤ r.2 := by
  intro r hr
  rw [List.mem_filterMap] at hr
  obtain ⟨it, hit, hmatch⟩ := hr
  unfold resolveReturnItems at hit
  rw [List.mem_filterMap] at hit
  obtain ⟨ri, hri, hmap⟩ := hit
  rcases hfind : orig.items.find? (fun x => itemId x == ri.id && itemType x == ri.rtype)
    with _ | it₀
  · rw [hfind] at hmap
    exact absurd hmap (by simp)
  · rw [hfind] at hmap
    have hmap' : setItemQty it₀ ri.quantity = it := Option.some.inj hmap
    cases it₀ with
    | prod i₀ =>
      rw [← hmap'] at hmatch
      simp only [setItemQty] at hmatch
      have := Option.some.inj hmatch
      rw [← this]
      exact h ri hri
    | serv sv =>
      rw [← hmap'] at hmatch
      simp only [setItemQty] at hmatch
      exact absurd hmatch (by simp)

theorem applyLotDeduction_nonneg (lot : String) (q : ℤ) (bs : List ProductBatch)
    (h : ∀ b ∈ bs, 0 ≤ b.stock) :
    ∀ b ∈ applyLotDeduction lot q bs, 0 ≤ b.stock := by
  induction bs with
  | nil => simp [applyLotDeduction]
  | cons b rest ih =>
    intro c hc
    simp only [applyLotDeduction] at hc
    by_cases hl : (b.lotNumber == lot) = true
    · rw [if_pos hl] at hc
      rcases List.mem_cons.1 hc with rfl | hcr
      · simp only
        exact le_max_left 0 _
      · exact h c (List.mem_cons_of_mem _ hcr)
    · rw [if_neg hl] at hc
      rcases List.mem_cons.1 hc with rfl | hcr
      · exact h c (List.mem_cons_self _ _)
      · exact ih (fun x hx => h x (List.mem_cons_of_mem _ hx)) c hcr

theorem applyPurchaseReturnDeduction_nonneg (ps : List Product)
    (d : String × ℤ × String) (hnn : stocksNonneg ps) :
    stocksNonneg (applyPurchaseReturnDeduction ps d) := by
  intro p' hp' b' hb'
  simp only [applyPurchaseReturnDeduction, List.mem_map] at hp'
  obtain ⟨p, hp, rfl⟩ := hp'
  by_cases hid : (p.id == d.1) = true
  · rw [if_pos hid] at hb'
    exact applyLotDeduction_nonneg d.2.2 d.2.1 p.batches (hnn p hp) b' hb'
  · rw [if_neg hid] at hb'
    exact hnn p hp b' hb'

theorem purchaseReturn_fold_nonneg (ds : List (String × ℤ × String)) :
    ∀ ps, stocksNonneg ps → stocksNonneg (ds.foldl applyPurchaseReturnDeduction ps) := by
  induction ds with
  | nil => intro ps h; exact h
  | cons d rest ih =>
    intro ps h
    exact ih _ (applyPurchaseReturnDeduction_nonneg ps d h)

theorem pushBatch_nonneg (ps : List Product) (nb : NewBatch) (hq : 0 ≤ nb.stock)
    (hnn : stocksNonneg ps) : stocksNonneg (pushBatch ps nb) := by
  intro p' hp' b' hb'
  simp only [pushBatch, List.mem_map] at hp'
  obtain ⟨p, hp, rfl⟩ := hp'
  by_cases hid : (p.id == nb.productId) = true
  · rw [if_pos hid] at hb'
    simp only at hb'
    rcases List.mem_append.1 hb' with hm | hm
    · exact hnn p hp b' hm
    · rcases List.mem_singleton.1 hm with rfl
      exact hq
  · rw [if_neg hid] at hb'
    exact hnn p hp b' hb'

theorem purchaseBatches_stock (inv : PurchaseInvoice) (uuid : ℕ → String) :
    ∀ nb ∈ purchaseBatches inv uuid, ∃ it ∈ inv.items, nb.stock = it.quantity := by
  intro nb hnb
  simp only [purchaseBatches, List.mem_map] at hnb
  obtain ⟨x, hx, rfl⟩ := hnb
  exact ⟨x.2, List.snd_mem_of_mem_enum hx, rfl⟩

theorem convertPurchaseItems_qty (ps : List Product) (rate : ℚ)
    (items : List PurchaseItemInput) :
    ∀ it ∈ convertPurchaseItems ps rate items, ∃ it₀ ∈ items, it.quantity = it₀.quantity := by
  intro it hit
  simp only [convertPurchaseItems, List.mem_map] at hit
  obtain ⟨it₀, hit₀, rfl⟩ := hit
  exact ⟨it₀, hit₀, rfl⟩

theorem pushBatch_fold_nonneg (nbs : List NewBatch) :
    ∀ ps, (∀ nb ∈ nbs, 0 ≤ nb.stock) → stocksNonneg ps →
      stocksNonneg (nbs.foldl pushBatch ps) := by
  induction nbs with
  | nil => intro ps _ h; exact h
  | cons nb rest ih =>
    intro ps hq h
    exact ih _ (fun x hx => hq x (List.mem_cons_of_mem _ hx))
      (pushBatch_nonneg ps nb (hq nb (List.mem_cons_self _ _)) h)

theorem addPurchaseInvoice_products_ok (s : AppState) (input : PurchaseInput)
    (uuid : ℕ → String) (txId : String) (sup : Supplier)
    (hfind : s.suppliers.find? (fun x => x.id == input.supplierId) = some sup) :
    (addPurchaseInvoice s true input uuid txId true).state.products =
      (purchaseBatches
        { id := generateNextId "P" (s.purchaseInvoices.map (·.id))
          type := "purchase"
          originalInvoiceId := none
          supplierId := input.supplierId
          invoiceNumber :=
            if input.invoiceNumber == "" then
              generateNextId "P" (s.purchaseInvoices.map (·.id))
            else input.invoiceNumber
          items := convertPurchaseItems s.products
            (if input.currency == some "USD" then input.exchangeRate.getD 0 else 1)
            input.items
          totalAmount := purchaseItemsTotal (convertPurchaseItems s.products
            (if input.currency == some "USD" then input.exchangeRate.getD 0 else 1)
            input.items)
          timestamp := input.timestamp
          currency := input.currency
          exchangeRate :=
            some (if input.currency == some "USD" then input.exchangeRate.getD 0 else 1) }
        uuid).foldl pushBatch s.products := by
  simp [addPurchaseInvoice, hfind]

theorem addPurchaseInvoice_state_id (s : AppState) (input : PurchaseInput)
    (uuid : ℕ → String) (txId : String) (apiOk : Bool) :
    (addPurchaseInvoice s false input uuid txId apiOk).state = s ∧
    ((s.suppliers.find? (fun x => x.id == input.supplierId) = none) →
      (addPurchaseInvoice s true input uuid txId apiOk).state = s) ∧
    (∀ sup, s.suppliers.find? (fun x => x.id == input.supplierId) = some sup →
      (addPurchaseInvoice s true input uuid txId false).state = s) := by
  refine ⟨rfl, ?_, ?_⟩
  · intro hf
    simp [addPurchaseInvoice, hf]
  · intro sup hf
    simp [addPurchaseInvoice, hf]

theorem addPurchaseReturn_products_ok (s : AppState) (oid : String)
    (items : List (String × ℤ)) (now : ℤ) (txId : String) (orig : PurchaseInvoice)
    (hfind : s.purchaseInvoices.find? (fun i => i.id == oid) = some orig) :
    (addPurchaseReturn s true oid items now txId true).state.products =
      ((items.filterMap fun ri =>
        (orig.items.find? (fun it => it.productId == ri.1)).map fun it => (ri, it)).map
        fun x => (x.1.1, x.1.2, x.2.lotNumber)).foldl
        applyPurchaseReturnDeduction s.products := by
  rcases hsup : s.suppliers.find? (fun sp => sp.id == orig.supplierId) with _ | sp0 <;>
    simp [addPurchaseReturn, hfind, hsup]

theorem addPurchaseReturn_state_id (s : AppState) (oid : String)
    (items : List (String × ℤ)) (now : ℤ) (txId : String) (apiOk : Bool) :
    (addPurchaseReturn s false oid items now txId apiOk).state = s ∧
    ((s.purchaseInvoices.find? (fun i => i.id == oid) = none) →
      (addPurchaseReturn s true oid items now txId apiOk).state = s) ∧
    (∀ orig, s.purchaseInvoices.find? (fun i => i.id == oid) = some orig →
      (addPurchaseReturn s true oid items now txId false).state = s) := by
  refine ⟨rfl, ?_, ?_⟩
  · intro hf
    simp [addPurchaseReturn, hf]
  · intro orig hf
    simp [addPurchaseReturn, hf]

theorem invoiceRestores_nonneg (inv : SaleInvoice)
    (h : ∀ it ∈ inv.items, 0 ≤ itemQty it) :
    ∀ r ∈ invoiceRestores inv, 0 ≤ r.2 := by
  intro r hr
  unfold invoiceRestores at hr
  rw [List.mem_filterMap] at hr
  obtain ⟨it, hit, hm⟩ := hr
  cases it with
  | prod i =>
    have := Option.some.inj hm
    rw [← this]
    exact h (.prod i) hit
  | serv sv => exact absurd hm (by simp)

theorem addSaleReturn_ok_products (s : AppState) (oid : String)
    (items : List ReturnLine) (cashier : String) (now : ℤ) (txId : String)
    (orig : SaleInvoice)
    (hfind : s.saleInvoices.find? (fun i => i.id == oid) = some orig) :
    (addSaleReturn s true oid items cashier now txId true).state.products =
      ((resolveReturnItems orig items).filterMap fun it =>
        match it with
        | .prod i => some (i.id, i.quantity)
        | .serv _ => none).foldl applyRestore s.products := by
  rw [addSaleReturn_ok s oid items cashier now txId orig hfind]
  exact apiCreateSaleReturn_products s _ _ _ now txId

theorem edit_fold_nonneg (s : AppState) (qs : List Product) (its : List CartItem)
    (us : List (String × ℤ)) (rs : List (String × ℤ))
    (hok : processCart s.products s.cart = .ok (qs, its, us))
    (hnn : stocksNonneg s.products) (hB : batchIdsNodup s.products)
    (hC : (cartProdIds s.cart).Nodup)
    (hrs : ∀ r ∈ rs, 0 ≤ r.2) :
    stocksNonneg ((us.map fun u =>
      (u.1,
        match lookupBatchStock s.products u.1 with
        | some st => st - u.2
        | none => 0)).foldl applyDeduction (rs.foldl applyRestore s.products)) := by
  obtain ⟨hnd, hprov⟩ := processCart_updates_nodup s.cart s.products qs its us hok hB hC
  have hunn := processCart_updates_nonneg s.cart s.products qs its us hok
  refine deductions_fold_nonneg _ _ (restores_fold_nonneg rs s.products hrs hnn) ?_ ?_
  · have hmap : ((us.map fun u =>
        ((u.1 : String),
          match lookupBatchStock s.products u.1 with
          | some st => st - u.2
          | none => (0 : ℤ))).map Prod.fst) = us.map Prod.fst := by
      rw [List.map_map]
      exact List.map_congr_left fun u _ => rfl
    rw [hmap]
    exact hnd
  · intro d hd
    rw [List.mem_map] at hd
    obtain ⟨u, hu, rfl⟩ := hd
    have hx : u.1 ∈ us.map Prod.fst := List.mem_map_of_mem _ hu
    obtain ⟨i, hi, p, hp, hpi, hxp⟩ := hprov u.1 hx
    rw [List.mem_map] at hxp
    obtain ⟨b, hb, hbid⟩ := hxp
    have hlk : lookupBatchStock s.products u.1 = some b.stock := by
      rw [← hbid]
      exact lookupBatchStock_eq s.products hB p hp b hb
    have hu2 : 0 ≤ u.2 := hunn u hu
    refine boundIn_after_restores rs s.products hrs _ _ ?_
    show boundIn s.products u.1
      (match lookupBatchStock s.products u.1 with
       | some st => st - u.2
       | none => 0)
    rw [hlk]
    intro p' hp' b' hb' hid'
    have hlk' := lookupBatchStock_eq s.products hB p' hp' b' hb'
    rw [hid', hlk] at hlk'
    have hbb : b.stock = b'.stock := Option.some.inj hlk'
    show b.stock - u.2 ≤ b'.stock
    omega

theorem completeSale_invoice_fields (s : AppState) (cashier : String)
    (cid : Option String) (now : ℤ) (txId : String) (apiOk : Bool)
    (hne : s.cart.isEmpty = false)
    (qs : List Product) (its : List CartItem) (us : List (String × ℤ))
    (hpc : processCart s.products s.cart = .ok (qs, its, us)) :
    ((completeSale s true cashier cid now txId apiOk).invoice.map fun i => i.items) = some its
    ∧ ((completeSale s true cashier cid now txId apiOk).invoice.map fun i => i.subtotal) =
        some (cartSubtotal s.cart)
    ∧ ((completeSale s true cashier cid now txId apiOk).invoice.map fun i => i.totalAmount) =
        some (cartTotal s.cart)
    ∧ ((completeSale s true cashier cid now txId apiOk).invoice.map fun i => i.totalDiscount) =
        some (cartSubtotal s.cart - cartTotal s.cart) := by
  cases heid : s.editingSaleInvoiceId with
  | none =>
    cases apiOk with
    | false =>
      refine ⟨?_, ?_, ?_, ?_⟩ <;> simp [completeSale, hne, hpc, heid]
    | true =>
      refine ⟨?_, ?_, ?_, ?_⟩ <;> simp [completeSale, hne, hpc, heid]
  | some eid =>
    cases apiOk with
    | false =>
      refine ⟨?_, ?_, ?_, ?_⟩ <;> simp [completeSale, hne, hpc, heid]
    | true =>
      refine ⟨?_, ?_, ?_, ?_⟩ <;> simp [completeSale, hne, hpc, heid]

theorem completeSale_invoice_totals (s : AppState) (cashier : String)
    (cid : Option String) (now : ℤ) (txId : String) (apiOk : Bool)
    (hne : s.cart.isEmpty = false)
    (qs : List Product) (its : List CartItem) (us : List (String × ℤ))
    (hpc : processCart s.products s.cart = .ok (qs, its, us)) :
    ∃ inv, (completeSale s true cashier cid now txId apiOk).invoice = some inv
      ∧ inv.items = its
      ∧ inv.subtotal = cartSubtotal s.cart
      ∧ inv.totalAmount = cartTotal s.cart
      ∧ inv.totalDiscount = cartSubtotal s.cart - cartTotal s.cart := by
  obtain ⟨h1, h2, h3, h4⟩ :=
    completeSale_invoice_fields s cashier cid now txId apiOk hne qs its us hpc
  rcases hinv : (completeSale s true cashier cid now txId apiOk).invoice with _ | inv
  · rw [hinv] at h1
    exact absurd h1 (by simp)
  · rw [hinv] at h1 h2 h3 h4
    simp only [Option.map_some'] at h1 h2 h3 h4
    exact ⟨inv, rfl, Option.some.inj h1, Option.some.inj h2,
      Option.some.inj h3, Option.some.inj h4⟩

theorem foldl_add_eq_sum_right {α : Type} (f : α → ℚ) (c : List α) :
    ∀ a, c.foldl (fun tot it => tot + f it) a = a + (c.map f).sum := by
  induction c with
  | nil => intro a; simp
  | cons x rest ih =>
    intro a
    simp only [List.foldl_cons, List.map_cons, List.sum_cons, ih]
    ring

theorem purchaseItemsTotal_eq_sum (items : List PurchaseInvoiceItem) :
    purchaseItemsTotal items =
      ((items.map fun it => it.purchasePrice * (it.quantity : ℚ)).sum) := by
  unfold purchaseItemsTotal
  rw [foldl_add_eq_sum_right]
  ring

theorem purchaseItemsTotal_convert (ps : List Product) (rate : ℚ)
    (items : List PurchaseItemInput) :
    purchaseItemsTotal (convertPurchaseItems ps rate items) =
      ((items.map fun it => it.purchasePrice * rate * (it.quantity : ℚ)).sum) := by
  rw [purchaseItemsTotal_eq_sum]
  unfold convertPurchaseItems
  rw [List.map_map]
  rfl

theorem convertPurchaseItems_mem (ps : List Product) (rate : ℚ)
    (items : List PurchaseItemInput) :
    ∀ it ∈ convertPurchaseItems ps rate items, ∃ it0 ∈ items,
      it.purchasePrice = it0.purchasePrice * rate ∧ it.quantity = it0.quantity := by
  intro it hit
  simp only [convertPurchaseItems, List.mem_map] at hit
  obtain ⟨it0, hit0, rfl⟩ := hit
  exact ⟨it0, hit0, rfl, rfl⟩

theorem purchaseBatches_price (inv : PurchaseInvoice) (uuid : ℕ → String) :
    ∀ nb ∈ purchaseBatches inv uuid, ∃ it ∈ inv.items,
      nb.purchasePrice = it.purchasePrice ∧ nb.stock = it.quantity := by
  intro nb hnb
  simp only [purchaseBatches, List.mem_map] at hnb
  obtain ⟨x, hx, rfl⟩ := hnb
  exact ⟨x.2, List.snd_mem_of_mem_enum hx, rfl, rfl⟩

theorem addPurchaseInvoice_ok_components (s : AppState) (input : PurchaseInput)
    (uuid : ℕ → String) (txId : String) (sup : Supplier)
    (hfind : s.suppliers.find? (fun sp => sp.id == input.supplierId) = some sup) :
    (addPurchaseInvoice s true input uuid txId true).state.purchaseInvoices =
      purchaseInvoiceOf s input :: s.purchaseInvoices
    ∧ (addPurchaseInvoice s true input uuid txId true).state.supplierTransactions =
      purchaseTxnOf s input txId sup.id :: s.supplierTransactions
    ∧ (addPurchaseInvoice s true input uuid txId true).state.suppliers =
      (s.suppliers.map fun sp =>
        if sp.id == sup.id then
          { sp with balance := sp.balance + (purchaseInvoiceOf s input).totalAmount }
        else sp)
    ∧ (addPurchaseInvoice s true input uuid txId true).state.products =
      (purchaseBatches (purchaseInvoiceOf s input) uuid).foldl pushBatch s.products := by
  refine ⟨?_, ?_, ?_, ?_⟩ <;>
    simp [addPurchaseInvoice, hfind, purchaseInvoiceOf, purchaseTxnOf, purchaseRate]

theorem addSaleReturn_ok_invoices (s : AppState) (oid : String)
    (items : List ReturnLine) (cashier : String) (now : ℤ) (txId : String)
    (orig : SaleInvoice)
    (hfind : s.saleInvoices.find? (fun i => i.id == oid) = some orig) :
    (addSaleReturn s true oid items cashier now txId true).state.saleInvoices =
      { id := generateNextId "R" (s.saleInvoices.map (·.id))
        type := "return"
        originalInvoiceId := some oid
        items := resolveReturnItems orig items
        subtotal := (resolveReturnItems orig items).foldl
          (fun t it => t + getPriceFinal it * (itemQty it : ℚ)) 0
        totalAmount := (resolveReturnItems orig items).foldl
          (fun t it => t + getPriceFinal it * (itemQty it : ℚ)) 0
        totalDiscount := 0
        timestamp := now
        cashier := cashier
        customerId := orig.customerId } :: s.saleInvoices := by
  rw [addSaleReturn_ok s oid items cashier now txId orig hfind]
  exact apiCreateSaleReturn_invoices s _ _ _ now txId

theorem enum_map_snd_comp {α β : Type} (l : List α) (g : α → β) :
    l.enum.map (fun x => g x.2) = l.map g := by
  rw [show l.map g = (l.enum.map Prod.snd).map g from by rw [List.enum_map_snd],
    List.map_map]
  rfl

/-! ## The claims -/

/-- C1: For every sale line whose requested quantity is positive and at most
the product's total stock (all stocks nonnegative), `completeSale`'s
per-line deduction walks the batches with an expiry date sorted ascending by
expiry, then the batches without one sorted ascending by purchase date, takes
`min (remaining, stock)` from each (recording `stock - taken`), consumes
exactly the requested quantity, and accumulates `taken × unit cost` so that
the snapshotted unit cost times the quantity equals that sum. -/
theorem C1_fifo_deduction (p : Product) (q : ℤ) (h0 : 0 < q)
    (hs : q ≤ totalStock p) (hnn : ∀ b ∈ p.batches, 0 ≤ b.stock) :
    List.Sorted (fun a b => expiryKey a ≤ expiryKey b) (expiryPart p.batches)
    ∧ List.Perm (expiryPart p.batches)
        (p.batches.filter fun b => b.expiryDate.isSome && decide (0 < b.stock))
    ∧ List.Sorted (fun a b => a.purchaseDate ≤ b.purchaseDate) (noExpiryPart p.batches)
    ∧ List.Perm (noExpiryPart p.batches)
        (p.batches.filter fun b => b.expiryDate.isNone && decide (0 < b.stock))
    ∧ deductionOrder p.batches = expiryPart p.batches ++ noExpiryPart p.batches
    ∧ (runDeduction (deductionOrder p.batches) q).remaining ≤ 0
    ∧ (runDeduction (deductionOrder p.batches) q).stockUpdates =
        ((specConsume q (deductionOrder p.batches)).map
          (fun x => (x.1.id, x.1.stock - x.2)))
    ∧ consumedSum (specConsume q (deductionOrder p.batches)) = q
    ∧ (runDeduction (deductionOrder p.batches) q).totalPurchaseValue =
        consumedCost (specConsume q (deductionOrder p.batches))
    ∧ linePurchasePrice p q * q =
        consumedCost (specConsume q (deductionOrder p.batches)) := by
  have hpos : ∀ b ∈ deductionOrder p.batches, 0 ≤ b.stock :=
    fun b hb => le_of_lt (deductionOrder_mem_pos p.batches b hb)
  have hsum : q ≤ sumStocks (deductionOrder p.batches) := by
    rw [sumStocks_deductionOrder_eq p.batches hnn]
    exact hs
  have hconsumed : consumedSum (specConsume q (deductionOrder p.batches)) = q :=
    consumedSum_of_le _ q (le_of_lt h0) hsum hpos
  refine ⟨sortByKey_sorted expiryKey _, sortByKey_perm expiryKey _,
    sortByKey_sorted (fun b : ProductBatch => b.purchaseDate) _,
    sortByKey_perm (fun b : ProductBatch => b.purchaseDate) _, rfl,
    runDeduction_success p.batches q (le_of_lt h0) hs hnn,
    runDeduction_updates _ q, hconsumed, runDeduction_value _ q, ?_⟩
  unfold linePurchasePrice
  rw [runDeduction_value]
  have hq : (q : ℚ) ≠ 0 := Int.cast_ne_zero.2 (by omega)
  exact div_mul_cancel₀ _ hq

/-- Witness for C1 at the spec's own example: selling 5 units against batches
(stock 3, expiring first, unit cost 10) and (stock 10, expiring later, unit
cost 20) deducts 3 from the first and 2 from the second, at purchase value
3·10 + 2·20 = 70 and snapshotted unit cost 14. -/
theorem C1_fifo_deduction_witness :
    ((0 : ℤ) < 5 ∧ (5 : ℤ) ≤ totalStock pPen ∧ ∀ b ∈ pPen.batches, 0 ≤ b.stock)
    ∧ (runDeduction (deductionOrder pPen.batches) 5).remaining ≤ 0
    ∧ (runDeduction (deductionOrder pPen.batches) 5).stockUpdates = [("b1", 0), ("b2", 8)]
    ∧ (runDeduction (deductionOrder pPen.batches) 5).totalPurchaseValue = 70
    ∧ linePurchasePrice pPen 5 = 14 :=
  ⟨⟨by decide, by decide, by decide⟩,
    (C1_fifo_deduction pPen 5 (by decide) (by decide) (by decide)).2.2.2.2.2.1,
    by decide,
    by norm_num [runDeduction, deductionOrder, expiryPart, noExpiryPart, sortByKey,
      List.insertionSort, List.orderedInsert, expiryKey, pPen, bExp1, bExp2],
    by norm_num [linePurchasePrice, runDeduction, deductionOrder, expiryPart, noExpiryPart,
      sortByKey, List.insertionSort, List.orderedInsert, expiryKey, pPen, bExp1, bExp2]⟩

/-- C2: when every product line of the cart resolves to a product, the lines
are for distinct products, stocks are nonnegative, and some line asks for
more than its product's total stock, `completeSale` fails the entire sale:
it returns failure carrying the insufficient-stock message that names a
violating product, makes no adapter call, shows no toast, and leaves the
whole application state (including the cart) unchanged. -/
theorem C2_insufficient_stock_fails (s : AppState) (cashier : String)
    (cid : Option String) (now : ℤ) (txId : String) (apiOk : Bool)
    (hnn : stocksNonneg s.products)
    (hex : ∀ i ∈ cartProdItems s.cart,
      (s.products.find? (fun r => r.id == i.id)).isSome = true)
    (hnd : (cartProdIds s.cart).Nodup)
    (hviol : ∃ i ∈ cartProdItems s.cart, lineExceedsStock s.products i) :
    ∃ i ∈ cartProdItems s.cart, lineExceedsStock s.products i ∧
      completeSale s true cashier cid now txId apiOk =
        ⟨false, insufficientMsg i.name, none, s, [], []⟩ := by
  have hex' : ∀ i ∈ cartProdItems s.cart,
      ∃ p, s.products.find? (fun r => r.id == i.id) = some p := by
    intro i hi
    have h1 := hex i hi
    rcases hf : s.products.find? (fun r => r.id == i.id) with _ | p
    · rw [hf] at h1
      exact absurd h1 (by simp)
    · exact ⟨p, hf⟩
  have hviol' : ∃ i ∈ cartProdItems s.cart,
      ∃ p, s.products.find? (fun r => r.id == i.id) = some p ∧
        totalStock p < i.quantity := by
    obtain ⟨i, hi, hv⟩ := hviol
    unfold lineExceedsStock at hv
    rcases hf : s.products.find? (fun r => r.id == i.id) with _ | p
    · rw [hf] at hv
      simp at hv
    · rw [hf] at hv
      simp only [Option.map_some', Option.getD_some] at hv
      exact ⟨i, hi, p, hf, hv⟩
  obtain ⟨i, hi, ⟨p, hfind, hlt⟩, herr⟩ :=
    processCart_insufficient s.cart s.products hnn hex' hnd hviol'
  have hne : s.cart.isEmpty = false := by
    cases hc : s.cart with
    | nil =>
      rw [hc] at hi
      exact absurd hi (by simp [cartProdItems])
    | cons a t => simp [hc]
  refine ⟨i, hi, ?_, completeSale_procError s cashier cid now txId apiOk hne _ herr⟩
  unfold lineExceedsStock
  rw [hfind]
  simpa using hlt

/-- Witness for C2: a cart asking for 99 units against a total stock of 13
fails with the insufficient-stock message and no state change. -/
theorem C2_insufficient_stock_fails_witness :
    (stocksNonneg c2State.products
      ∧ (∀ i ∈ cartProdItems c2State.cart,
          (c2State.products.find? (fun r => r.id == i.id)).isSome = true)
      ∧ (cartProdIds c2State.cart).Nodup
      ∧ ∃ i ∈ cartProdItems c2State.cart, lineExceedsStock c2State.products i)
    ∧ ∃ i ∈ cartProdItems c2State.cart, lineExceedsStock c2State.products i ∧
        completeSale c2State true "ali" none 0 "t1" true =
          ⟨false, insufficientMsg i.name, none, c2State, [], []⟩ :=
  ⟨⟨by decide, by decide, by decide, by decide⟩,
    C2_insufficient_stock_fails c2State "ali" none 0 "t1" true
      (by decide) (by decide) (by decide) (by decide)⟩

/-- C3: from any state with nonnegative batch stocks (batch ids globally
distinct, the cart's product lines for distinct products, stored invoice
quantities nonnegative), every stock-touching operation — sale completion in
create and edit mode, sale return with nonnegative requested quantities,
purchase posting with nonnegative item quantities, and purchase return —
leaves every batch's stock nonnegative, in every branch (offline, failure,
or success). -/
theorem C3_stock_nonneg (s : AppState)
    (hnn : stocksNonneg s.products)
    (hB : batchIdsNodup s.products)
    (hC : (cartProdIds s.cart).Nodup)
    (hQ : invoiceQtysNonneg s) :
    (∀ cashier cid now txId online apiOk,
      stocksNonneg (completeSale s online cashier cid now txId apiOk).state.products)
    ∧ (∀ oid ritems cashier now txId online apiOk,
        (∀ r ∈ ritems, 0 ≤ r.quantity) →
        stocksNonneg (addSaleReturn s online oid ritems cashier now txId apiOk).state.products)
    ∧ (∀ input uuid txId online apiOk,
        (∀ it ∈ input.items, 0 ≤ it.quantity) →
        stocksNonneg (addPurchaseInvoice s online input uuid txId apiOk).state.products)
    ∧ (∀ oid pitems now txId online apiOk,
        stocksNonneg (addPurchaseReturn s online oid pitems now txId apiOk).state.products) := by
  have hQ' : ∀ inv ∈ s.saleInvoices, ∀ it ∈ inv.items, 0 ≤ itemQty it := hQ
  refine ⟨?_, ?_, ?_, ?_⟩
  · intro cashier cid now txId online apiOk
    cases online with
    | false =>
      rw [completeSale_offline]
      exact hnn
    | true =>
      cases hc : s.cart.isEmpty with
      | true =>
        rw [completeSale_empty s cashier cid now txId apiOk hc]
        exact hnn
      | false =>
        cases hpc : processCart s.products s.cart with
        | error m =>
          rw [completeSale_procError s cashier cid now txId apiOk hc m hpc]
          exact hnn
        | ok x =>
          obtain ⟨qs, its, us⟩ := x
          cases heid : s.editingSaleInvoiceId with
          | none =>
            cases apiOk with
            | false =>
              rw [(completeSale_create_fail s cashier cid now txId heid hc qs its us hpc).1]
              exact hnn
            | true =>
              rw [completeSale_create_ok_products s cashier cid now txId heid hc qs its us hpc]
              exact processCart_nonneg s.cart s.products qs its us hpc hnn
          | some eid =>
            cases apiOk with
            | false =>
              rw [(completeSale_edit_fail_state s cashier cid now txId eid heid hc
                qs its us hpc).1]
              exact hnn
            | true =>
              rw [completeSale_edit_ok_products s cashier cid now txId eid heid hc
                qs its us hpc]
              refine edit_fold_nonneg s qs its us _ hpc hnn hB hC ?_
              cases hf : s.saleInvoices.find? (fun i => i.id == eid) with
              | none =>
                intro r hr
                exact absurd hr (List.not_mem_nil r)
              | some inv =>
                exact invoiceRestores_nonneg inv (hQ' inv (List.mem_of_find?_eq_some hf))
  · intro oid ritems cashier now txId online apiOk hq
    cases online with
    | false =>
      rw [(addSaleReturn_offline_or_notfound s oid ritems cashier now txId apiOk).1]
      exact hnn
    | true =>
      cases hf : s.saleInvoices.find? (fun i => i.id == oid) with
      | none =>
        rw [(addSaleReturn_offline_or_notfound s oid ritems cashier now txId apiOk).2 hf]
        exact hnn
      | some orig =>
        cases apiOk with
        | false =>
          rw [(addSaleReturn_fail_state s oid ritems cashier now txId orig hf).1]
          exact hnn
        | true =>
          rw [addSaleReturn_ok_products s oid ritems cashier now txId orig hf]
          exact restores_fold_nonneg _ s.products
            (resolveReturn_restores_nonneg orig ritems hq) hnn
  · intro input uuid txId online apiOk hq
    cases online with
    | false =>
      rw [(addPurchaseInvoice_state_id s input uuid txId apiOk).1]
      exact hnn
    | true =>
      cases hf : s.suppliers.find? (fun x => x.id == input.supplierId) with
      | none =>
        rw [(addPurchaseInvoice_state_id s input uuid txId apiOk).2.1 hf]
        exact hnn
      | some sup =>
        cases apiOk with
        | false =>
          rw [(addPurchaseInvoice_state_id s input uuid txId false).2.2 sup hf]
          exact hnn
        | true =>
          rw [addPurchaseInvoice_products_ok s input uuid txId sup hf]
          refine pushBatch_fold_nonneg _ s.products ?_ hnn
          intro nb hnb
          obtain ⟨it, hit, hstock⟩ := purchaseBatches_stock _ uuid nb hnb
          have hit' : it ∈ convertPurchaseItems s.products
              (if input.currency == some "USD" then input.exchangeRate.getD 0 else 1)
              input.items := hit
          obtain ⟨it₀, hit₀, hqty⟩ :=
            convertPurchaseItems_qty s.products _ input.items it hit'
          rw [hstock, hqty]
          exact hq it₀ hit₀
  · intro oid pitems now txId online apiOk
    cases online with
    | false =>
      rw [(addPurchaseReturn_state_id s oid pitems now txId apiOk).1]
      exact hnn
    | true =>
      cases hf : s.purchaseInvoices.find? (fun i => i.id == oid) with
      | none =>
        rw [(addPurchaseReturn_state_id s oid pitems now txId apiOk).2.1 hf]
        exact hnn
      | some orig =>
        cases apiOk with
        | false =>
          rw [(addPurchaseReturn_state_id s oid pitems now txId false).2.2 orig hf]
          exact hnn
        | true =>
          rw [addPurchaseReturn_products_ok s oid pitems now txId orig hf]
          exact purchaseReturn_fold_nonneg _ s.products hnn

/-- Witness for C3: the edit-mode state (invoice F1 being edited against a
cart of 3 units) satisfies all the invariant hypotheses, and the successful
edit leaves every batch stock nonnegative. -/
theorem C3_stock_nonneg_witness :
    (stocksNonneg editState.products ∧ batchIdsNodup editState.products
      ∧ (cartProdIds editState.cart).Nodup ∧ invoiceQtysNonneg editState)
    ∧ stocksNonneg (completeSale editState true "ali" none 0 "t1" true).state.products :=
  ⟨⟨by decide, by decide, by decide, by decide⟩,
    (C3_stock_nonneg editState (by decide) (by decide) (by decide) (by decide)).1
      "ali" none 0 "t1" true true⟩

/-- C4: editing a sale invoice that keeps the same attached customer adjusts
the customer's stored balance numerically by the delta of the two totals —
from `B` to `B - T1 + T2` where `T1` is the original invoice total and `T2`
the new cart total — and rewrites the amount of the existing `credit_sale`
ledger row linked to that invoice to `T2`. -/
theorem C4_edit_balance_delta (s : AppState) (cashier : String) (cid : String)
    (now : ℤ) (txId : String) (eid : String)
    (heid : s.editingSaleInvoiceId = some eid)
    (hne : s.cart.isEmpty = false)
    (hok : (processCart s.products s.cart).isOk = true)
    (oldInv : SaleInvoice)
    (hfind : s.saleInvoices.find? (fun i => i.id == eid) = some oldInv)
    (hsame : oldInv.customerId = some cid)
    (c0 : Customer)
    (hcust : s.customers.find? (fun c => c.id == cid) = some c0) :
    (completeSale s true cashier (some cid) now txId true).state.customers =
      (s.customers.map fun c =>
        if c.id == cid then
          { c with balance := c0.balance - oldInv.totalAmount + cartTotal s.cart }
        else c)
    ∧ (completeSale s true cashier (some cid) now txId true).state.customerTransactions =
      (s.customerTransactions.map fun t =>
        if t.invoiceId == some eid && t.type == "credit_sale" then
          { t with
              amount := cartTotal s.cart,
              description := "فاکتور فروش #" ++ eid ++ " (ویرایش شده)" }
        else t) := by
  rcases hpc : processCart s.products s.cart with m | x
  · rw [hpc] at hok
    exact Bool.noConfusion hok
  · obtain ⟨qs, its, us⟩ := x
    constructor <;>
      simp [completeSale, hne, hpc, heid, hfind, hsame, apiUpdateSale, hcust]

/-- Witness for C4: editing invoice F1 (total 100) for customer c1 (balance
100) to a new cart totalling 150 drives the balance through 100 − 100 + 150
and rewrites the linked credit-sale row to the new total. -/
theorem C4_edit_balance_delta_witness :
    (editState.editingSaleInvoiceId = some "F1"
      ∧ editState.cart.isEmpty = false
      ∧ (processCart editState.products editState.cart).isOk = true
      ∧ editState.saleInvoices.find? (fun i => i.id == "F1") = some invF1
      ∧ invF1.customerId = some "c1"
      ∧ editState.customers.find? (fun c => c.id == "c1") = some cust1)
    ∧ ((completeSale editState true "ali" (some "c1") 0 "t1" true).state.customers =
        (editState.customers.map fun c =>
          if c.id == "c1" then
            { c with balance := cust1.balance - invF1.totalAmount + cartTotal editState.cart }
          else c)
      ∧ (completeSale editState true "ali" (some "c1") 0 "t1" true).state.customerTransactions =
        (editState.customerTransactions.map fun t =>
          if t.invoiceId == some "F1" && t.type == "credit_sale" then
            { t with
                amount := cartTotal editState.cart,
                description := "فاکتور فروش #" ++ "F1" ++ " (ویرایش شده)" }
          else t)) :=
  ⟨⟨by decide, by decide, by decide, by decide, by decide, by decide⟩,
    C4_edit_balance_delta editState "ali" "c1" 0 "t1" "F1"
      (by decide) (by decide) (by decide) invF1 (by decide) (by decide) cust1 (by decide)⟩

/-- C5: for every non-empty cart that clears the stock check, the produced
invoice's subtotal is the sum of list price times quantity, its total the sum
of effective (override-or-list) price times quantity, its discount their
difference, so total = subtotal − discount always; and the discount can be
negative: a cart whose single line is overridden above list price yields a
negative recorded discount. -/
theorem C5_invoice_totals (s : AppState) (cashier : String) (cid : Option String)
    (now : ℤ) (txId : String) (apiOk : Bool)
    (hne : s.cart.isEmpty = false)
    (hok : (processCart s.products s.cart).isOk = true) :
    (∃ inv, (completeSale s true cashier cid now txId apiOk).invoice = some inv
      ∧ inv.subtotal = ((s.cart.map fun it => getPriceOriginal it * (itemQty it : ℚ)).sum)
      ∧ inv.totalAmount = ((s.cart.map fun it => getPriceFinal it * (itemQty it : ℚ)).sum)
      ∧ inv.totalDiscount = inv.subtotal - inv.totalAmount
      ∧ inv.totalAmount = inv.subtotal - inv.totalDiscount)
    ∧ (∃ inv,
        (completeSale negDiscountState true cashier cid now txId apiOk).invoice = some inv
        ∧ inv.totalDiscount < 0) := by
  constructor
  · rcases hpc : processCart s.products s.cart with m | x
    · rw [hpc] at hok
      exact Bool.noConfusion hok
    · obtain ⟨qs, its, us⟩ := x
      obtain ⟨inv, hinv, -, hsub, htot, hdisc⟩ :=
        completeSale_invoice_totals s cashier cid now txId apiOk hne qs its us hpc
      refine ⟨inv, hinv, hsub.trans (cartSubtotal_eq_sum s.cart),
        htot.trans (cartTotal_eq_sum s.cart), ?_, ?_⟩
      · rw [hsub, htot, hdisc]
      · rw [hsub, htot, hdisc]
        ring
  · rcases hpc : processCart negDiscountState.products negDiscountState.cart with m | x
    · have hok' : (processCart negDiscountState.products negDiscountState.cart).isOk = true :=
        by decide
      rw [hpc] at hok'
      exact Bool.noConfusion hok'
    · obtain ⟨qs, its, us⟩ := x
      obtain ⟨inv, hinv, -, -, -, hdisc⟩ :=
        completeSale_invoice_totals negDiscountState cashier cid now txId apiOk
          (by decide) qs its us hpc
      refine ⟨inv, hinv, ?_⟩
      rw [hdisc]
      norm_num [cartSubtotal, cartTotal, List.foldl, negDiscountState, baseState,
        cartLineOverride, getPriceOriginal, getPriceFinal, itemQty]

/-- Witness for C5 at a two-unit cart sold at list price: the invoice's
totals satisfy the stated sums and sign convention, and the overridden cart
exhibits a negative discount. -/
theorem C5_invoice_totals_witness :
    (saleState.cart.isEmpty = false
      ∧ (processCart saleState.products saleState.cart).isOk = true)
    ∧ ((∃ inv, (completeSale saleState true "ali" none 0 "t1" true).invoice = some inv
        ∧ inv.subtotal =
            ((saleState.cart.map fun it => getPriceOriginal it * (itemQty it : ℚ)).sum)
        ∧ inv.totalAmount =
            ((saleState.cart.map fun it => getPriceFinal it * (itemQty it : ℚ)).sum)
        ∧ inv.totalDiscount = inv.subtotal - inv.totalAmount
        ∧ inv.totalAmount = inv.subtotal - inv.totalDiscount)
      ∧ (∃ inv,
          (completeSale negDiscountState true "ali" none 0 "t1" true).invoice = some inv
          ∧ inv.totalDiscount < 0)) :=
  ⟨⟨by decide, by decide⟩,
    C5_invoice_totals saleState "ali" none 0 "t1" true (by decide) (by decide)⟩

/-- C6: a purchase entered in USD at exchange rate `r` is stored normalised:
every stored line and every created batch carries the entered unit price
times `r`; the posted invoice's total and the amount added to the supplier
balance equal the sum of converted price times quantity (base currency); and
the supplier ledger row carries the face amount — that total divided by `r` —
tagged `USD`.  An AFN purchase uses rate 1, so its ledger row carries the
base-currency total itself, tagged `AFN`. -/
theorem C6_usd_purchase (s : AppState) (input input2 : PurchaseInput)
    (uuid : ℕ → String) (txId : String) (r : ℚ) (sup sup2 : Supplier)
    (husd : input.currency = some "USD")
    (hr : input.exchangeRate = some r)
    (hfind : s.suppliers.find? (fun sp => sp.id == input.supplierId) = some sup)
    (hafn : input2.currency = some "AFN")
    (hfind2 : s.suppliers.find? (fun sp => sp.id == input2.supplierId) = some sup2) :
    (∃ inv txn,
      (addPurchaseInvoice s true input uuid txId true).state.purchaseInvoices =
          inv :: s.purchaseInvoices
      ∧ (addPurchaseInvoice s true input uuid txId true).state.supplierTransactions =
          txn :: s.supplierTransactions
      ∧ (addPurchaseInvoice s true input uuid txId true).state.suppliers =
          (s.suppliers.map fun sp =>
            if sp.id == sup.id then { sp with balance := sp.balance + inv.totalAmount }
            else sp)
      ∧ (addPurchaseInvoice s true input uuid txId true).state.products =
          (purchaseBatches inv uuid).foldl pushBatch s.products
      ∧ (∀ it ∈ inv.items, ∃ it0 ∈ input.items,
          it.purchasePrice = it0.purchasePrice * r ∧ it.quantity = it0.quantity)
      ∧ (∀ nb ∈ purchaseBatches inv uuid, ∃ it0 ∈ input.items,
          nb.purchasePrice = it0.purchasePrice * r ∧ nb.stock = it0.quantity)
      ∧ inv.totalAmount =
          ((input.items.map fun it => it.purchasePrice * r * (it.quantity : ℚ)).sum)
      ∧ txn.amount = inv.totalAmount / r
      ∧ txn.currency = some "USD")
    ∧ (∃ inv txn,
      (addPurchaseInvoice s true input2 uuid txId true).state.purchaseInvoices =
          inv :: s.purchaseInvoices
      ∧ (addPurchaseInvoice s true input2 uuid txId true).state.supplierTransactions =
          txn :: s.supplierTransactions
      ∧ inv.totalAmount =
          ((input2.items.map fun it => it.purchasePrice * (it.quantity : ℚ)).sum)
      ∧ txn.amount = inv.totalAmount
      ∧ txn.currency = some "AFN") := by
  have hrate : purchaseRate input = r := by
    simp [purchaseRate, husd, hr]
  have hrate2 : purchaseRate input2 = 1 := by
    simp [purchaseRate, hafn]
  constructor
  · obtain ⟨h1, h2, h3, h4⟩ := addPurchaseInvoice_ok_components s input uuid txId sup hfind
    refine ⟨purchaseInvoiceOf s input, purchaseTxnOf s input txId sup.id,
      h1, h2, h3, h4, ?_, ?_, ?_, ?_, ?_⟩
    · intro it hit
      have hit' : it ∈ convertPurchaseItems s.products (purchaseRate input) input.items := hit
      rw [hrate] at hit'
      exact convertPurchaseItems_mem s.products r input.items it hit'
    · intro nb hnb
      obtain ⟨it, hit, hprice, hstock⟩ :=
        purchaseBatches_price (purchaseInvoiceOf s input) uuid nb hnb
      have hit' : it ∈ convertPurchaseItems s.products (purchaseRate input) input.items := hit
      rw [hrate] at hit'
      obtain ⟨it0, hit0, hp0, hq0⟩ :=
        convertPurchaseItems_mem s.products r input.items it hit'
      exact ⟨it0, hit0, hprice.trans hp0, hstock.trans hq0⟩
    · show purchaseItemsTotal
          (convertPurchaseItems s.products (purchaseRate input) input.items) = _
      rw [hrate, purchaseItemsTotal_convert]
    · show (if input.currency == some "USD" then
          (purchaseInvoiceOf s input).totalAmount / purchaseRate input
        else (purchaseInvoiceOf s input).totalAmount) = _
      rw [hrate]
      simp [husd]
    · show input.currency = some "USD"
      exact husd
  · obtain ⟨h1, h2, -, -⟩ := addPurchaseInvoice_ok_components s input2 uuid txId sup2 hfind2
    refine ⟨purchaseInvoiceOf s input2, purchaseTxnOf s input2 txId sup2.id, h1, h2, ?_, ?_, ?_⟩
    · show purchaseItemsTotal
          (convertPurchaseItems s.products (purchaseRate input2) input2.items) = _
      rw [hrate2, purchaseItemsTotal_convert]
      have hmap : (input2.items.map fun it => it.purchasePrice * 1 * (it.quantity : ℚ)) =
          (input2.items.map fun it => it.purchasePrice * (it.quantity : ℚ)) :=
        List.map_congr_left fun it _ => by ring
      rw [hmap]
    · show (if input2.currency == some "USD" then
          (purchaseInvoiceOf s input2).totalAmount / purchaseRate input2
        else (purchaseInvoiceOf s input2).totalAmount) = _
      simp [hafn]
    · show input2.currency = some "AFN"
      exact hafn

/-- Witness for C6: five units at 2 USD with rate 70 against the base state,
and the same five units at 2 AFN, both posted to supplier s1. -/
theorem C6_usd_purchase_witness :
    (purInputUSD.currency = some "USD"
      ∧ purInputUSD.exchangeRate = some 70
      ∧ baseState.suppliers.find? (fun sp => sp.id == purInputUSD.supplierId) = some sup1
      ∧ purInputAFN.currency = some "AFN"
      ∧ baseState.suppliers.find? (fun sp => sp.id == purInputAFN.supplierId) = some sup1)
    ∧ ((∃ inv txn,
        (addPurchaseInvoice baseState true purInputUSD uuidFn "t1" true).state.purchaseInvoices =
            inv :: baseState.purchaseInvoices
        ∧ (addPurchaseInvoice baseState true purInputUSD uuidFn "t1"
            true).state.supplierTransactions = txn :: baseState.supplierTransactions
        ∧ (addPurchaseInvoice baseState true purInputUSD uuidFn "t1" true).state.suppliers =
            (baseState.suppliers.map fun sp =>
              if sp.id == sup1.id then { sp with balance := sp.balance + inv.totalAmount }
              else sp)
        ∧ (addPurchaseInvoice baseState true purInputUSD uuidFn "t1" true).state.products =
            (purchaseBatches inv uuidFn).foldl pushBatch baseState.products
        ∧ (∀ it ∈ inv.items, ∃ it0 ∈ purInputUSD.items,
            it.purchasePrice = it0.purchasePrice * 70 ∧ it.quantity = it0.quantity)
        ∧ (∀ nb ∈ purchaseBatches inv uuidFn, ∃ it0 ∈ purInputUSD.items,
            nb.purchasePrice = it0.purchasePrice * 70 ∧ nb.stock = it0.quantity)
        ∧ inv.totalAmount =
            ((purInputUSD.items.map fun it => it.purchasePrice * 70 * (it.quantity : ℚ)).sum)
        ∧ txn.amount = inv.totalAmount / 70
        ∧ txn.currency = some "USD")
      ∧ (∃ inv txn,
        (addPurchaseInvoice baseState true purInputAFN uuidFn "t1" true).state.purchaseInvoices =
            inv :: baseState.purchaseInvoices
        ∧ (addPurchaseInvoice baseState true purInputAFN uuidFn "t1"
            true).state.supplierTransactions = txn :: baseState.supplierTransactions
        ∧ inv.totalAmount =
            ((purInputAFN.items.map fun it => it.purchasePrice * (it.quantity : ℚ)).sum)
        ∧ txn.amount = inv.totalAmount
        ∧ txn.currency = some "AFN")) :=
  ⟨⟨by decide, by decide, by decide, by decide, by decide⟩,
    C6_usd_purchase baseState purInputUSD purInputAFN uuidFn "t1" 70 sup1 sup1
      (by decide) (by decide) (by decide) (by decide) (by decide)⟩

/-- C7 (amended): when the adapter call fails, create-mode sale completion,
sale return, and purchase posting keep local state exactly as it was and
surface a failure toast; but edit-mode sale completion still clears the cart
and the editing-invoice marker and shows no failure message, and a failed
purchase return keeps state unchanged while also showing no message. -/
theorem C7_adapter_failure (s : AppState) (cashier : String) (cid : Option String)
    (now : ℤ) (txId : String) :
    (s.editingSaleInvoiceId = none → s.cart.isEmpty = false →
      (processCart s.products s.cart).isOk = true →
      (completeSale s true cashier cid now txId false).state = s
      ∧ (completeSale s true cashier cid now txId false).toasts =
          ["❌ خطا در ثبت فاکتور در سرور."])
    ∧ (∀ eid, s.editingSaleInvoiceId = some eid → s.cart.isEmpty = false →
      (processCart s.products s.cart).isOk = true →
      (completeSale s true cashier cid now txId false).state =
          { s with cart := [], editingSaleInvoiceId := none }
      ∧ (completeSale s true cashier cid now txId false).toasts = [])
    ∧ (∀ oid ritems orig,
      s.saleInvoices.find? (fun i => i.id == oid) = some orig →
      (addSaleReturn s true oid ritems cashier now txId false).state = s
      ∧ (addSaleReturn s true oid ritems cashier now txId false).toasts =
          ["❌ خطا در ثبت مرجوعی."])
    ∧ (∀ (input : PurchaseInput) (uuid : ℕ → String) (sup : Supplier),
      s.suppliers.find? (fun sp => sp.id == input.supplierId) = some sup →
      (addPurchaseInvoice s true input uuid txId false).state = s
      ∧ (addPurchaseInvoice s true input uuid txId false).toasts =
          ["❌ خطا در ثبت فاکتور خرید."])
    ∧ (∀ oid (pitems : List (String × ℤ)) orig,
      s.purchaseInvoices.find? (fun i => i.id == oid) = some orig →
      (addPurchaseReturn s true oid pitems now txId false).state = s
      ∧ (addPurchaseReturn s true oid pitems now txId false).toasts = []) := by
  refine ⟨?_, ?_, ?_, ?_, ?_⟩
  · intro heid hne hok
    rcases hpc : processCart s.products s.cart with m | x
    · rw [hpc] at hok
      exact Bool.noConfusion hok
    · obtain ⟨qs, its, us⟩ := x
      have h := completeSale_create_fail s cashier cid now txId heid hne qs its us hpc
      exact ⟨h.1, h.2.1⟩
  · intro eid heid hne hok
    rcases hpc : processCart s.products s.cart with m | x
    · rw [hpc] at hok
      exact Bool.noConfusion hok
    · obtain ⟨qs, its, us⟩ := x
      have h := completeSale_edit_fail_state s cashier cid now txId eid heid hne qs its us hpc
      exact ⟨h.1, h.2.1⟩
  · intro oid ritems orig hf
    have h := addSaleReturn_fail_state s oid ritems cashier now txId orig hf
    exact ⟨h.1, h.2.1⟩
  · intro input uuid sup hf
    refine ⟨(addPurchaseInvoice_state_id s input uuid txId false).2.2 sup hf, ?_⟩
    simp [addPurchaseInvoice, hf]
  · intro oid pitems orig hf
    refine ⟨(addPurchaseReturn_state_id s oid pitems now txId false).2.2 orig hf, ?_⟩
    rcases hsup : s.suppliers.find? (fun sp => sp.id == orig.supplierId) with _ | sp0 <;>
      simp [addPurchaseReturn, hf, hsup]

/-- Counterexample to C7 as stated: failing the adapter call of an edit-mode
sale completion does change local state (the cart and the editing marker are
cleared before the call settles, with no rollback) and surfaces no message,
even though the adapter call was made. -/
theorem C7_adapter_failure_counterexample :
    (completeSale editState true "ali" none 0 "t1" false).state ≠ editState
    ∧ (completeSale editState true "ali" none 0 "t1" false).toasts = []
    ∧ (completeSale editState true "ali" none 0 "t1" false).calls ≠ [] := by
  rcases hpc : processCart editState.products editState.cart with m | x
  · have hok : (processCart editState.products editState.cart).isOk = true := by decide
    rw [hpc] at hok
    exact Bool.noConfusion hok
  · obtain ⟨qs, its, us⟩ := x
    have h := completeSale_edit_fail_state editState "ali" none 0 "t1" "F1"
      (by decide) (by decide) qs its us hpc
    refine ⟨?_, h.2.1, h.2.2⟩
    intro heq
    rw [h.1] at heq
    exact absurd (congrArg AppState.cart heq) (by decide)

/-- Witness for C7 (amended) at the edit-mode fixture: the hypotheses of the
edit conjunct hold and the failed edit lands on the cleared-cart state with
no toast. -/
theorem C7_adapter_failure_witness :
    (editState.editingSaleInvoiceId = some "F1"
      ∧ editState.cart.isEmpty = false
      ∧ (processCart editState.products editState.cart).isOk = true)
    ∧ ((completeSale editState true "ali" none 0 "t1" false).state =
        { editState with cart := [], editingSaleInvoiceId := none }
      ∧ (completeSale editState true "ali" none 0 "t1" false).toasts = []) :=
  ⟨⟨by decide, by decide, by decide⟩,
    (C7_adapter_failure editState "ali" none 0 "t1").2.1 "F1"
      (by decide) (by decide) (by decide)⟩

/-- C8: a successful sale return prepends a fresh invoice of type `return`
whose `originalInvoiceId` is the original's id, leaves the stored invoice
list — the original included — otherwise untouched, and restores each
returned product quantity by adding it to the stock of the first batch of
that product (the head of its batch list), not to the batches the sale
originally consumed. -/
theorem C8_sale_return (s : AppState) (oid : String) (ritems : List ReturnLine)
    (cashier : String) (now : ℤ) (txId : String) (orig : SaleInvoice)
    (hfind : s.saleInvoices.find? (fun i => i.id == oid) = some orig) :
    ∃ ret,
      (addSaleReturn s true oid ritems cashier now txId true).state.saleInvoices =
          ret :: s.saleInvoices
      ∧ ret.type = "return"
      ∧ ret.originalInvoiceId = some oid
      ∧ ret.items = resolveReturnItems orig ritems
      ∧ (addSaleReturn s true oid ritems cashier now txId true).state.products =
          ((resolveReturnItems orig ritems).filterMap fun it =>
            match it with
            | .prod i => some (i.id, i.quantity)
            | .serv _ => none).foldl applyRestore s.products
      ∧ (∀ (ps : List Product) (r : String × ℤ) (p : Product) (b : ProductBatch)
          (bs : List ProductBatch), p ∈ ps → (p.id == r.1) = true →
          p.batches = b :: bs →
          { p with batches := { b with stock := b.stock + r.2 } :: bs } ∈
            applyRestore ps r) := by
  refine ⟨_, addSaleReturn_ok_invoices s oid ritems cashier now txId orig hfind,
    rfl, rfl, rfl, addSaleReturn_ok_products s oid ritems cashier now txId orig hfind,
    ?_⟩
  intro ps r p b bs hp hid hbs
  unfold applyRestore
  rw [List.mem_map]
  refine ⟨p, hp, ?_⟩
  rw [if_pos hid, hbs]

/-- Witness for C8: returning one unit of the pen against stored invoice F1
creates the linked return invoice and restores stock via the head batch. -/
theorem C8_sale_return_witness :
    (stWithInv.saleInvoices.find? (fun i => i.id == "F1") = some invF1)
    ∧ ∃ ret,
      (addSaleReturn stWithInv true "F1" [⟨"p1", "product", 1⟩] "ali" 0 "t1"
          true).state.saleInvoices = ret :: stWithInv.saleInvoices
      ∧ ret.type = "return"
      ∧ ret.originalInvoiceId = some "F1"
      ∧ ret.items = resolveReturnItems invF1 [⟨"p1", "product", 1⟩]
      ∧ (addSaleReturn stWithInv true "F1" [⟨"p1", "product", 1⟩] "ali" 0 "t1"
          true).state.products =
          ((resolveReturnItems invF1 [⟨"p1", "product", 1⟩]).filterMap fun it =>
            match it with
            | .prod i => some (i.id, i.quantity)
            | .serv _ => none).foldl applyRestore stWithInv.products
      ∧ (∀ (ps : List Product) (r : String × ℤ) (p : Product) (b : ProductBatch)
          (bs : List ProductBatch), p ∈ ps → (p.id == r.1) = true →
          p.batches = b :: bs →
          { p with batches := { b with stock := b.stock + r.2 } :: bs } ∈
            applyRestore ps r) :=
  ⟨by decide,
    C8_sale_return stWithInv "F1" [⟨"p1", "product", 1⟩] "ali" 0 "t1" invF1 (by decide)⟩

/-- C10: when at least one employee is owed a positive net salary, a
successful payroll run books one `salary_payment` row per such employee for
`monthlySalary − balance`, zeroes every employee's balance (advances beyond
the salary are forgiven with no row at all), and books a single `salary`
expense equal to the sum of the payment amounts; when no employee has a
positive net salary the run fails with no adapter call and no state change. -/
theorem C10_payroll (s : AppState) (now : ℤ) (uuid : ℕ → String)
    (expenseId : String) :
    ((∃ e ∈ s.employees, 0 < e.monthlySalary - e.balance) →
      (processAndPaySalaries s true now uuid expenseId true).state.employees =
          (s.employees.map fun e => { e with balance := 0 })
      ∧ ∃ txns exp,
          (processAndPaySalaries s true now uuid expenseId true).state.payrollTransactions =
            txns ++ s.payrollTransactions
          ∧ txns.map (fun t => (t.employeeId, t.amount)) =
              ((s.employees.filter fun e => decide (0 < e.monthlySalary - e.balance)).map
                fun e => (e.id, e.monthlySalary - e.balance))
          ∧ (∀ t ∈ txns, t.type = "salary_payment")
          ∧ (processAndPaySalaries s true now uuid expenseId true).state.expenses =
              exp :: s.expenses
          ∧ exp.category = "salary"
          ∧ exp.amount = (txns.map (fun t => t.amount)).sum)
    ∧ ((∀ e ∈ s.employees, e.monthlySalary - e.balance ≤ 0) →
      ∀ apiOk, processAndPaySalaries s true now uuid expenseId apiOk =
        ⟨false, "حقوقی برای پرداخت نیست.", none, s, [], []⟩) := by
  constructor
  · intro h
    obtain ⟨e0, he0, hpos⟩ := h
    have hq : e0 ∈ s.employees.filter fun e => decide (0 < e.monthlySalary - e.balance) :=
      List.mem_filter.2 ⟨he0, decide_eq_true hpos⟩
    have hqne : (s.employees.filter fun e => decide (0 < e.monthlySalary - e.balance)) ≠ [] :=
      List.ne_nil_of_mem hq
    have hall : ∀ x ∈ (s.employees.filter fun e =>
        decide (0 < e.monthlySalary - e.balance)).map
          (fun e => e.monthlySalary - e.balance), 0 < x := by
      intro x hx
      rw [List.mem_map] at hx
      obtain ⟨e, he, rfl⟩ := hx
      exact of_decide_eq_true (List.mem_filter.1 he).2
    have hsum : 0 < ((s.employees.filter fun e =>
        decide (0 < e.monthlySalary - e.balance)).map
          (fun e => e.monthlySalary - e.balance)).sum := by
      refine List.sum_pos _ hall ?_
      intro hm
      rw [List.map_eq_nil_iff] at hm
      exact hqne hm
    have htp : ((s.employees.filter fun e =>
        decide (0 < e.monthlySalary - e.balance)).foldl
          (fun t e => t + (e.monthlySalary - e.balance)) 0) ≠ 0 := by
      rw [foldl_add_eq_sum_right, zero_add]
      intro hc
      rw [hc] at hsum
      exact lt_irrefl 0 hsum
    have hfe : (fun e : Employee => decide (e.balance < e.monthlySalary)) =
        (fun e : Employee => decide (0 < e.monthlySalary - e.balance)) := by
      funext e
      rw [decide_eq_decide]
      exact sub_pos.symm
    have htp' : (List.foldl (fun t e => t + (e.monthlySalary - e.balance)) 0
        (List.filter (fun e => decide (e.balance < e.monthlySalary)) s.employees)) ≠ 0 := by
      rw [hfe]
      exact htp
    refine ⟨by simp [processAndPaySalaries, htp'],
      (s.employees.filter fun e => decide (0 < e.monthlySalary - e.balance)).enum.map
        (fun x =>
          { id := uuid x.1
            employeeId := x.2.id
            type := "salary_payment"
            amount := x.2.monthlySalary - x.2.balance
            date := now
            description := "حقوق ماهانه" }),
      { id := expenseId
        category := "salary"
        description := "حقوق ماهانه"
        amount := (s.employees.filter fun e => decide (0 < e.monthlySalary - e.balance)).foldl
          (fun t e => t + (e.monthlySalary - e.balance)) 0
        date := now },
      by simp [processAndPaySalaries, htp'], ?_, ?_,
      by simp [processAndPaySalaries, htp'], rfl, ?_⟩
    · rw [List.map_map]
      exact enum_map_snd_comp _
        (fun e : Employee => ((e.id : String), e.monthlySalary - e.balance))
    · intro t ht
      rw [List.mem_map] at ht
      obtain ⟨x, hx, rfl⟩ := ht
      rfl
    · show ((s.employees.filter fun e => decide (0 < e.monthlySalary - e.balance)).foldl
          (fun t e => t + (e.monthlySalary - e.balance)) 0) = _
      rw [List.map_map, foldl_add_eq_sum_right, zero_add]
      exact (congrArg List.sum
        (enum_map_snd_comp _ (fun e : Employee => e.monthlySalary - e.balance))).symm
  · intro h apiOk
    have hQnil : (s.employees.filter fun e => decide (e.balance < e.monthlySalary)) = [] := by
      rw [List.filter_eq_nil_iff]
      intro e he
      simp only [decide_eq_true_eq]
      exact not_lt.2 (sub_nonpos.1 (h e he))
    simp [processAndPaySalaries, hQnil]

/-- Witness for C10: employee e1 (salary 500, advances 100) is owed 400, so
the run pays and zeroes balances; employee e2's excess advance is forgiven. -/
theorem C10_payroll_witness :
    (∃ e ∈ baseState.employees, 0 < e.monthlySalary - e.balance)
    ∧ ((processAndPaySalaries baseState true 0 uuidFn "x1" true).state.employees =
        (baseState.employees.map fun e => { e with balance := 0 })
      ∧ ∃ txns exp,
          (processAndPaySalaries baseState true 0 uuidFn "x1"
            true).state.payrollTransactions = txns ++ baseState.payrollTransactions
          ∧ txns.map (fun t => (t.employeeId, t.amount)) =
              ((baseState.employees.filter fun e =>
                decide (0 < e.monthlySalary - e.balance)).map
                fun e => (e.id, e.monthlySalary - e.balance))
          ∧ (∀ t ∈ txns, t.type = "salary_payment")
          ∧ (processAndPaySalaries baseState true 0 uuidFn "x1" true).state.expenses =
              exp :: baseState.expenses
          ∧ exp.category = "salary"
          ∧ exp.amount = (txns.map (fun t => t.amount)).sum) :=
  ⟨⟨emp1, by decide, by norm_num [emp1]⟩,
    (C10_payroll baseState 0 uuidFn "x1").1 ⟨emp1, by decide, by norm_num [emp1]⟩⟩

/-- C9 (amended): the export→wipe→reinsert→reload round trip is the identity
up to the read mappers' normalisations, exactly: a product returns with its
batches intact and `itemsPerPackage` forced through `Number(x) || 1`; a sale
invoice returns with every header field intact and each product line's
missing per-line override materialised as its list price (and its package
size rehydrated); a purchase invoice returns with a missing currency read as
`AFN` and a missing-or-zero exchange rate read as `1`; customer and payroll
ledger rows return verbatim, and a supplier row's missing currency reads as
`AFN`. -/
theorem C9_backup_roundtrip :
    (∀ p : Product, roundTripProduct p =
      { p with itemsPerPackage := some (jsOrInt p.itemsPerPackage 1) })
    ∧ (∀ (products : List Product) (inv : SaleInvoice),
      roundTripSaleInvoice products inv =
        { inv with items := inv.items.map (restoredSaleItem products) })
    ∧ (∀ inv : PurchaseInvoice, roundTripPurchaseInvoice inv =
      { inv with
          currency := some (inv.currency.getD "AFN")
          exchangeRate := some (jsOrRat inv.exchangeRate 1) })
    ∧ (∀ t : CustomerTransaction, rowToCustomerTxn (customerTxnToRow t) = t)
    ∧ (∀ t : SupplierTransaction, rowToSupplierTxn (supplierTxnToRow t) =
      { t with currency := some (t.currency.getD "AFN") })
    ∧ (∀ t : PayrollTransaction, rowToPayrollTxn (payrollTxnToRow t) = t) := by
  refine ⟨?_, ?_, ?_, fun t => rfl, fun t => rfl, fun t => rfl⟩
  · intro p
    have hb : (p.batches.map (batchToRow p.id)).map rowToBatch = p.batches := by
      rw [List.map_map]
      have hpt : ∀ b ∈ p.batches, (rowToBatch ∘ batchToRow p.id) b = id b := fun b _ => rfl
      rw [List.map_congr_left hpt, List.map_id]
    have h2 : roundTripProduct p =
        { p with
            itemsPerPackage := some (jsOrInt p.itemsPerPackage 1)
            batches := (p.batches.map (batchToRow p.id)).map rowToBatch } := rfl
    rw [h2, hb]
  · intro products inv
    have hitem : ∀ it ∈ inv.items,
        rowToSaleItem products (saleItemToRow inv.id it) = restoredSaleItem products it := by
      intro it _
      cases it with
      | prod i => rfl
      | serv sv => rfl
    have h2 : roundTripSaleInvoice products inv =
        { inv with
            items := inv.items.map fun it => rowToSaleItem products (saleItemToRow inv.id it) } :=
      rfl
    rw [h2, List.map_congr_left hitem]
  · intro inv
    have hi : inv.items.map (fun it => rowToPurchaseItem (purchaseItemToRow inv.id it)) =
        inv.items := by
      have hpt : ∀ it ∈ inv.items,
          rowToPurchaseItem (purchaseItemToRow inv.id it) = id it := fun it _ => rfl
      rw [List.map_congr_left hpt, List.map_id]
    have h2 : roundTripPurchaseInvoice inv =
        { inv with
            currency := some (inv.currency.getD "AFN")
            exchangeRate := some (jsOrRat inv.exchangeRate 1)
            items := inv.items.map fun it => rowToPurchaseItem (purchaseItemToRow inv.id it) } :=
      rfl
    rw [h2, hi]

/-- Counterexample to C9 as stated: the round trip is not the identity — a
product without a package size comes back with `itemsPerPackage = 1`, and a
sale line without a per-line override comes back with its list price
materialised into `finalPrice`, so the restored invoice differs from the
exported one. -/
theorem C9_backup_roundtrip_counterexample :
    roundTripSaleInvoice baseState.products invNoOverride ≠ invNoOverride
    ∧ roundTripProduct pPen ≠ pPen := by
  constructor <;> decide

end Ketabestan
